import Mathlib

/-!
# x_core_template: filter-query builder, rate limiter and request middleware

A shallow embedding of `internal/persist/common.go`, `internal/handlers/middleware.go`
and `internal/handlers/handlers.go`.

Conventions of the embedding:

* Go's `int` is taken to be 64 bits wide (the usual server platforms); `int64`
  arithmetic wraps, which `wrap64` makes explicit.
* A Go string is a byte sequence, `GoString`; indexing and slicing act on bytes.
* A Go map is visited by `range` in an unspecified order: a condition map is
  given as the list of its entries in the order in which the loop visits them.
* The database handle, `strconv.ParseFloat`, the token verifier and the
  `http.ResponseWriter` are interfaces whose implementations live outside the
  repository: they are parameters, and calls on them are recorded.
-/

namespace XCore

/-! ## Go strings and machine integers -/

/-- A Go string: its bytes, each a natural number below 256. -/
abbrev GoString := List Nat

/-- The bytes of an ASCII text (for ASCII the UTF-8 bytes are the code points). -/
def ofAscii (s : String) : GoString := s.toList.map Char.toNat

/-- Largest int64. -/
def maxInt64 : Int := 9223372036854775807

/-- Smallest int64. -/
def minInt64 : Int := -9223372036854775808

/-- Two-complement reduction of a mathematical integer to int64. -/
def wrap64 (x : Int) : Int := (x + 9223372036854775808) % 18446744073709551616 - 9223372036854775808

/-! ## strconv -/

/-- The two kinds of `*strconv.NumError`. -/
inductive NumError where
  | ErrSyntax
  | ErrRange
  deriving DecidableEq, Repr

/-- ASCII decimal digit test, `'0' <= c && c <= '9'`. -/
def isDigit (c : Nat) : Bool := decide (48 ≤ c) && decide (c ≤ 57)

/-- The digit loop of `strconv.ParseUint(s, 10, 64)`: bytes are consumed left to
right; a byte that is not a digit is a syntax error, a value above `2^64 - 1` a
range error, whichever is met first. -/
def parseUintLoop : Nat → GoString → Except NumError Nat
  | n, [] => .ok n
  | n, c :: rest =>
    if isDigit c then
      if 10 * n + (c - 48) ≥ 18446744073709551616 then .error .ErrRange
      else parseUintLoop (10 * n + (c - 48)) rest
    else .error .ErrSyntax

/-- Model of `strconv.Atoi` with a 64-bit `int`: an optional sign, then at least one
decimal digit, the value within `[-2^63, 2^63 - 1]`. -/
def Atoi (s : GoString) : Except NumError Int :=
  match s with
  | [] => .error .ErrSyntax
  | c :: t =>
    let neg : Bool := c == 45
    let digits : GoString := if c == 43 || c == 45 then t else s
    if digits = [] then .error .ErrSyntax
    else
      match parseUintLoop 0 digits with
      | .error e => .error e
      | .ok un =>
        if !neg && decide (un ≥ 9223372036854775808) then .error .ErrRange
        else if neg && decide (un > 9223372036854775808) then .error .ErrRange
        else .ok (if neg then -(un : Int) else (un : Int))

/-- Decimal digits of a natural number, most significant first, as ASCII bytes;
the empty list for zero. -/
def digitBytes (n : Nat) : GoString := ((Nat.digits 10 n).map (fun d => d + 48)).reverse

/-- Decimal text of an integer, as `strconv.Itoa` writes it. -/
def decimalText (n : Int) : GoString :=
  if n = 0 then [48]
  else if n < 0 then 45 :: digitBytes n.natAbs
  else digitBytes n.natAbs

/-! ## Conditions, queries and the storage interface -/

/-- A condition value, Go's `interface{}`: a string or something else. `F` stands
for `float64`. -/
inductive Value (F : Type) where
  | str (s : GoString)
  | int (n : Int)
  | float (x : F)
  | bool (b : Bool)
  | null

/-- One `Where(sql, arg)` clause of a gorm query. -/
structure Clause (F : Type) where
  sql : String
  arg : Value F

/-- The clauses added to a gorm query so far, oldest first; they are conjoined. -/
abbrev Query (F : Type) := List (Clause F)

/-- The errors `GetFilteredPaginatedRecords` and `GetAllRecords` return.
`invalidPrice` and `invalidPct` carry the text handed to the parser and the
parser's verdict, which together fix the message. -/
inductive QueryError where
  | priceNotString
  | invalidPrice (text : GoString) (cause : NumError)
  | pctNotString
  | invalidPct (text : GoString) (cause : NumError)
  | storage (msg : String)
  deriving DecidableEq, Repr

/-- The message of a `QueryError`, up to the rendering of the wrapped cause. -/
def QueryError.message : QueryError → String
  | .priceNotString => "value (price) is not a string"
  | .invalidPrice _ _ => "invalid price value"
  | .pctNotString => "value (pct_remaining) is not a string"
  | .invalidPct _ _ => "invalid pct_remaining value"
  | .storage msg => msg

/-- What one pass of the condition loop body does. -/
inductive Flow (α : Type) where
  | continue (a : α)
  | fail (e : QueryError)
  | crash

/-- The database behind `*gorm.DB`: a count and a paged fetch, each of which may
report an error. -/
structure Store (F T : Type) where
  count : Query F → Except String Int
  find : Query F → Int → Int → Except String (List T)

/-- A statement sent to the database. -/
inductive DBCall (F : Type) where
  | count (q : Query F)
  | find (q : Query F) (offset limit : Int)

/-- Run-time panics of the persistence functions. -/
inductive Panic where
  | indexOutOfRange
  | divideByZero
  deriving DecidableEq, Repr

/-- The three results of a Go call `([]T, int, error)`, with the statements issued. -/
structure Returned (F T : Type) where
  records : Option (List T)
  totalPages : Int
  err : Option QueryError
  calls : List (DBCall F)

/-- A call either returns or panics. -/
inductive Run (F T : Type) where
  | returned (r : Returned F T)
  | panicked (why : Panic) (calls : List (DBCall F))

/-! ## internal/persist/common.go -/

/-- Total pages, `int((totalRecords + int64(pageSize) - 1) / int64(pageSize))`, on
int64 with wrapping addition and truncating division; `none` is the run-time
panic of an integer division by zero. -/
def totalPages (totalRecords pageSize : Int) : Option Int :=
  if pageSize = 0 then none
  else some (wrap64 (Int.tdiv (wrap64 (wrap64 (totalRecords + pageSize) - 1)) pageSize))

/-- Page offset, `(page - 1) * pageSize`. -/
def pageOffset (page pageSize : Int) : Int := wrap64 (wrap64 (page - 1) * pageSize)

/-- The block `if field == "price" { ... }` of the condition loop, entered with a
condition on `price`. `none` means control leaves the block and goes on to the
statements after it. -/
def priceBlock {F : Type} (query : Query F) (field : String) (value : Value F) :
    Option (Flow (Query F)) :=
  match value with
  | .str str =>
    match str.getLast? with
    | none => some .crash
    | some lastChar =>
      let priceStr := str.dropLast
      match Atoi priceStr with
      | .error e => some (.fail (.invalidPrice priceStr e))
      | .ok price =>
        if lastChar = 45 then some (.continue (query ++ [⟨field ++ " <= ?", .int price⟩]))
        else if lastChar = 43 then some (.continue (query ++ [⟨field ++ " >= ?", .int price⟩]))
        else none
  | _ => some (.fail .priceNotString)

/-- The block `if field == "pct_remaining" { ... }` of the condition loop. -/
def pctBlock {F : Type} (ParseFloat : GoString → Except NumError F)
    (query : Query F) (field : String) (value : Value F) : Option (Flow (Query F)) :=
  match value with
  | .str str =>
    match str.getLast? with
    | none => some .crash
    | some lastChar =>
      let pctStr := str.dropLast
      match ParseFloat pctStr with
      | .error e => some (.fail (.invalidPct pctStr e))
      | .ok pctRemaining =>
        if lastChar = 45 then
          some (.continue (query ++ [⟨field ++ " <= ?", .float pctRemaining⟩]))
        else if lastChar = 43 then
          some (.continue (query ++ [⟨field ++ " >= ?", .float pctRemaining⟩]))
        else none
  | _ => some (.fail .pctNotString)

/-- The body of `for field, value := range conditions`. -/
def conditionStep {F : Type} (ParseFloat : GoString → Except NumError F)
    (query : Query F) (field : String) (value : Value F) : Flow (Query F) :=
  match (if field = "price" then priceBlock query field value else none) with
  | some flow => flow
  | none =>
    match (if field = "pct_remaining" then pctBlock ParseFloat query field value else none) with
    | some flow => flow
    | none => .continue (query ++ [⟨field ++ " = ?", value⟩])

/-- The condition loop, over the entries in the order the map yields them. -/
def conditionLoop {F : Type} (ParseFloat : GoString → Except NumError F) :
    Query F → List (String × Value F) → Flow (Query F)
  | query, [] => .continue query
  | query, (field, value) :: rest =>
    match conditionStep ParseFloat query field value with
    | .continue query1 => conditionLoop ParseFloat query1 rest
    | .fail e => .fail e
    | .crash => .crash

/-- Model of `GetFilteredPaginatedRecords`. -/
def GetFilteredPaginatedRecords {F T : Type} (ParseFloat : GoString → Except NumError F)
    (db : Store F T) (page pageSize : Int) (conditions : List (String × Value F)) : Run F T :=
  match conditionLoop ParseFloat [] conditions with
  | .crash => .panicked .indexOutOfRange []
  | .fail e => .returned ⟨none, 0, some e, []⟩
  | .continue query =>
    match db.count query with
    | .error msg => .returned ⟨none, 0, some (.storage msg), [.count query]⟩
    | .ok totalRecords =>
      match totalPages totalRecords pageSize with
      | none => .panicked .divideByZero [.count query]
      | some pages =>
        match db.find query (pageOffset page pageSize) pageSize with
        | .error msg =>
          .returned ⟨none, 0, some (.storage msg),
            [.count query, .find query (pageOffset page pageSize) pageSize]⟩
        | .ok records =>
          .returned ⟨some records, pages, none,
            [.count query, .find query (pageOffset page pageSize) pageSize]⟩

/-- Model of `GetAllRecords`. -/
def GetAllRecords {F T : Type} (db : Store F T) (page pageSize : Int) : Run F T :=
  match db.count [] with
  | .error msg => .returned ⟨none, 0, some (.storage msg), [.count []]⟩
  | .ok totalRecords =>
    match db.find [] (pageOffset page pageSize) pageSize with
    | .error msg =>
      .returned ⟨none, 0, some (.storage msg), [.count [], .find [] (pageOffset page pageSize) pageSize]⟩
    | .ok records =>
      match totalPages totalRecords pageSize with
      | none => .panicked .divideByZero [.count [], .find [] (pageOffset page pageSize) pageSize]
      | some pages =>
        .returned ⟨some records, pages, none,
          [.count [], .find [] (pageOffset page pageSize) pageSize]⟩

/-! ## net, net/http and strings -/

/-- Position of the first byte `c` of `s`, as `strings.IndexByte`. -/
def indexByte (s : GoString) (c : Nat) : Option Nat :=
  if s.indexOf c < s.length then some (s.indexOf c) else none

/-- Position of the last byte `c` of `s`, as `strings.LastIndexByte`. -/
def lastIndexByte (s : GoString) (c : Nat) : Option Nat :=
  match indexByte s.reverse c with
  | some k => some (s.length - 1 - k)
  | none => none

/-- Model of `net.SplitHostPort`: host and port of `host:port`, `[host]:port` or
`[host%zone]:port`; `none` when it reports an error. -/
def SplitHostPort (hostport : GoString) : Option (GoString × GoString) :=
  match lastIndexByte hostport 58 with
  | none => none
  | some i =>
    if hostport.head? = some 91 then
      match indexByte hostport 93 with
      | none => none
      | some close =>
        if close + 1 = hostport.length then none
        else if close + 1 = i then
          if (hostport.drop 1).contains 91 then none
          else if (hostport.drop (close + 1)).contains 93 then none
          else some ((hostport.take close).drop 1, hostport.drop (i + 1))
        else none
    else
      if (hostport.take i).contains 58 then none
      else if hostport.contains 91 then none
      else if hostport.contains 93 then none
      else some (hostport.take i, hostport.drop (i + 1))

/-- Model of `strings.Split(s, sep)` for a one-byte separator: the pieces of `s`
between the separators, in order; one piece when `s` has no separator. -/
def Split (sep : Nat) : GoString → List GoString
  | [] => [[]]
  | c :: rest =>
    if c = sep then [] :: Split sep rest
    else
      match Split sep rest with
      | [] => [[c]]
      | piece :: pieces => (c :: piece) :: pieces

/-- An inbound request, as far as the middleware reads it. `Authorization` holds
the values of that header in order (none when the header is absent); `session` is
the value stored in the request context under the key `clerksession`. -/
structure Request (S : Type) where
  RemoteAddr : GoString
  Authorization : List GoString
  session : Option S

/-- Model of `r.Header.Get`: the first value, or the empty string. -/
def headerGet (values : List GoString) : GoString := values.headD []

/-- The rate limiter's rejection payload. -/
structure Message where
  Status : String
  Body : String
  Locked : Bool
  Timestamp : Int
  deriving DecidableEq, Repr

/-- A value handed to `json.NewEncoder(w).Encode`. -/
inductive Payload where
  | message (m : Message)
  | object (fields : List (String × String))
  deriving DecidableEq, Repr

/-- A call on the `http.ResponseWriter`. -/
inductive WriterCall where
  | addHeader (key value : String)
  | writeHeader (status : Nat)
  | encode (v : Payload)
  | httpError (msg : String) (status : Nat)
  deriving DecidableEq, Repr

/-! ## The rate limiter: internal/handlers/middleware.go -/

/-- The limiter behind `*rate.Limiter`: the state `rate.NewLimiter(r, b)` returns
for a rate of `r` events per second and a burst of `b`, and the effect of
`Allow()` when the clock reads `now` (nanoseconds). -/
structure LimiterOps (L : Type) where
  NewLimiter : Int → Int → L
  Allow : Int → L → Bool × L

/-- State of a token bucket: its refill rate `limit` in tokens per second, its
capacity `burst` in tokens, `tokens` in billionths of a token, and `last`, the
clock reading of the last admission in nanoseconds. -/
structure Bucket where
  limit : Int
  burst : Int
  tokens : Int
  last : Int
  deriving DecidableEq, Repr

/-- Modelled from the spec: the token bucket of `golang.org/x/time/rate`, whose
source is not in the repository. A bucket made with rate `r` and burst `b` holds
at most `b` tokens, is refilled with `r` tokens per second (`r` billionths of a
token per nanosecond) and is initially full; a request consumes one token and is
refused when less than one token is available, leaving the bucket as it was. -/
def tokenBucket : LimiterOps Bucket where
  NewLimiter := fun r b => ⟨r, b, b * 1000000000, 0⟩
  Allow := fun now b =>
    let elapsed := if now < b.last then 0 else now - b.last
    let tokens := min (b.burst * 1000000000) (b.tokens + b.limit * elapsed)
    if 1000000000 ≤ tokens then (true, { b with tokens := tokens - 1000000000, last := now })
    else (false, b)

/-- The local type `client` of `RateLimiterMiddleware`; `lastSeen` in nanoseconds. -/
structure Client (L : Type) where
  limiter : L
  lastSeen : Int

/-- The map `clients`, from IP address to client, as an association list. -/
abbrev Clients (L : Type) := List (GoString × Client L)

/-- Map read `clients[ip]`. -/
def lookupClient {L : Type} (ip : GoString) : Clients L → Option (Client L)
  | [] => none
  | (k, c) :: rest => if k = ip then some c else lookupClient ip rest

/-- Map write `clients[ip] = c`. -/
def storeClient {L : Type} (ip : GoString) (c : Client L) : Clients L → Clients L
  | [] => [(ip, c)]
  | (k, c0) :: rest => if k = ip then (ip, c) :: rest else (k, c0) :: storeClient ip c rest

/-- The call `delete(clients, ip)`. -/
def deleteClient {L : Type} (ip : GoString) : Clients L → Clients L
  | [] => []
  | (k, c0) :: rest => if k = ip then deleteClient ip rest else (k, c0) :: deleteClient ip rest

/-- Five minutes, `5*time.Minute`, in nanoseconds. -/
def fiveMinutes : Int := 300000000000

/-- One visit of the sweep loop: the entry of `ip`, if still in the map, is deleted
when `time.Since(client.lastSeen) > 5*time.Minute`. -/
def sweepVisit {L : Type} (now : Int) (clients : Clients L) (ip : GoString) : Clients L :=
  match lookupClient ip clients with
  | some client => if now - client.lastSeen > fiveMinutes then deleteClient ip clients else clients
  | none => clients

/-- One pass of the background sweep, run under the lock with the clock reading
`now`: `for ip, client := range clients { ... }` visits the keys of the map. -/
def sweep {L : Type} (now : Int) (clients : Clients L) : Clients L :=
  (clients.map Prod.fst).foldl (sweepVisit now) clients

/-- The clock readings of one request: `lastSeen = time.Now()`, the reading inside
`Allow()`, and the `Timestamp` of a rejection. -/
structure Readings where
  seen : Int
  allow : Int
  stamp : Int
  deriving DecidableEq, Repr

/-- What a middleware did with a request: its calls on the response writer and
the request it handed to `next.ServeHTTP`, if it called it. -/
structure Served (S : Type) where
  writes : List WriterCall
  forwarded : Option (Request S)

/-- The payload of a rate-limit rejection. -/
def lockedMessage (stamp : Int) : Message :=
  ⟨"Request Failed", "The account is locked or disabled. Please wait 5 minutes and try again.",
    true, stamp⟩

/-- The handler returned by one call of `RateLimiterMiddleware(next)`, on the map
`clients` which that call made; a client not yet in the map gets
`rate.NewLimiter(3, 6)`. -/
def RateLimiterMiddleware {L S : Type} (lim : LimiterOps L) (clients : Clients L)
    (r : Request S) (t : Readings) : Clients L × Served S :=
  match SplitHostPort r.RemoteAddr with
  | none => (clients, ⟨[.writeHeader 500], none⟩)
  | some (ip, _) =>
    let found : Client L :=
      match lookupClient ip clients with
      | some c => c
      | none => ⟨lim.NewLimiter 3 6, 0⟩
    let verdict := lim.Allow t.allow found.limiter
    let clients1 := storeClient ip ⟨verdict.2, t.seen⟩ clients
    if !verdict.1 then
      (clients1, ⟨[.writeHeader 429, .encode (.message (lockedMessage t.stamp))], none⟩)
    else (clients1, ⟨[], some r⟩)

/-- What happens under the lock of the rate limiter: a request is handled, or the
sweep runs. -/
inductive Event (S : Type) where
  | request (r : Request S) (t : Readings)
  | sweep (now : Int)

/-- One handler, returned by a single call of `RateLimiterMiddleware(next)`,
handling a sequence of events on its map, oldest first; the answers to the
requests, in order. -/
def serveAll {L S : Type} (lim : LimiterOps L) :
    Clients L → List (Event S) → List (Request S × Served S)
  | _, [] => []
  | clients, .request r t :: rest =>
    (r, (RateLimiterMiddleware lim clients r t).2)
      :: serveAll lim (RateLimiterMiddleware lim clients r t).1 rest
  | clients, .sweep now :: rest => serveAll lim (sweep now clients) rest

/-- Whether a request comes from the address `ip`. -/
def isFrom {S : Type} (ip : GoString) (r : Request S) : Bool :=
  match SplitHostPort r.RemoteAddr with
  | some (host, _) => decide (host = ip)
  | none => false

/-- Whether an event touches the entry of `ip`: a sweep, or a request from `ip`. -/
def concerns {S : Type} (ip : GoString) : Event S → Bool
  | .request r _ => isFrom ip r
  | .sweep _ => true

/-- The limiter's answers to the requests from `ip`, in order. -/
def answersTo {L S : Type} (lim : LimiterOps L) (ip : GoString)
    (clients : Clients L) (events : List (Event S)) : List (Request S × Served S) :=
  (serveAll lim clients events).filter (fun a => isFrom ip a.1)

/-- What the sweep leaves of a map entry: nothing when the entry is absent or its
`lastSeen` is more than five minutes before `now`, else the entry itself. -/
def survivor {L : Type} (now : Int) : Option (Client L) → Option (Client L)
  | some client => if now - client.lastSeen > fiveMinutes then none else some client
  | none => none

/-! ## Authentication: internal/handlers/middleware.go -/

/-- The bytes of `Bearer`. -/
def Bearer : GoString := [66, 101, 97, 114, 101, 114]

/-- What `ClerkAuthMiddleware` did: as `Served`, with the tokens handed to
`VerifyToken`. -/
structure AuthServed (S : Type) where
  writes : List WriterCall
  verified : List GoString
  forwarded : Option (Request S)

/-- The handler returned by `ClerkAuthMiddleware`; `VerifyToken` is the Clerk
client's verifier. -/
def ClerkAuthMiddleware {S : Type} (VerifyToken : GoString → Except String S)
    (r : Request S) : AuthServed S :=
  let authHeader := headerGet r.Authorization
  if authHeader = [] then ⟨[.httpError "Unauthorized" 401], [], none⟩
  else
    let parts := Split 32 authHeader
    if parts.length ≠ 2 ∨ parts.head? ≠ some Bearer then
      ⟨[.httpError "Invalid authorization header" 401], [], none⟩
    else
      let sessionToken := parts.getD 1 []
      match VerifyToken sessionToken with
      | .error _ => ⟨[.httpError "Invalid session" 401], [sessionToken], none⟩
      | .ok session => ⟨[], [sessionToken], some { r with session := some session }⟩

/-! ## Error translation: internal/handlers/handlers.go -/

/-- Model of `formatError`, on the message `err.Error()`. -/
def formatError (err : String) : List (String × String) :=
  let handlerError :=
    if err = "sql: no rows in result set" then "No email found. Please sign up." else err
  [("error", handlerError)]

/-- Model of `WriteJSON`: the calls it makes on the response writer. -/
def WriteJSON (status : Nat) (v : Payload) : List WriterCall :=
  [.addHeader "Content-Type" "application/json", .writeHeader status, .encode v]

/-- Model of `HandleErrorResponse`. -/
def HandleErrorResponse (e : String) : List WriterCall :=
  WriteJSON 400 (.object (formatError e))

/-- Model of `HTTPHandlerFunc`: the route handler `f` yields its own calls on the
response writer and its error, `none` for nil; the result is every call made on
the writer. -/
def HTTPHandlerFunc {S : Type} (f : Request S → List WriterCall × Option String)
    (r : Request S) : List WriterCall :=
  match (f r).2 with
  | some err => (f r).1 ++ HandleErrorResponse err
  | none => (f r).1

/-! ## Logging: internal/handlers/middleware.go -/

/-- What `LoggerMiddleware` hands to `slog.Info`, as far as the request model
holds it: the caller's IP, the server address and the remote address. -/
structure LogRecord where
  ip : GoString
  serverAddr : GoString
  remoteAddr : GoString
  deriving DecidableEq, Repr

/-- A call of the logging handler: it returns, having logged and served, or it
panics. -/
inductive LoggerRun (S : Type) where
  | served (records : List LogRecord) (s : Served S)
  | panicked

/-- The handler returned by `LoggerMiddleware`. `localAddr` is the value of the
request context under `http.LocalAddrContextKey`, which `net/http` sets for
every request it serves; the type assertion `.(net.Addr)` panics without it. -/
def LoggerMiddleware {S : Type} (localAddr : Option GoString) (r : Request S) : LoggerRun S :=
  match SplitHostPort r.RemoteAddr with
  | none => .served [] ⟨[.writeHeader 500], none⟩
  | some (ip, _) =>
    match localAddr with
    | none => .panicked
    | some srvAddr => .served [⟨ip, srvAddr, r.RemoteAddr⟩] ⟨[], some r⟩

/-! ## Routing: internal/handlers/handlers.go -/

/-- The middleware functions handed to `Use`. -/
inductive Stage where
  | LoggerMiddleware
  | RateLimiterMiddleware
  | monitor
  | ClerkAuthMiddleware
  deriving DecidableEq, Repr

/-- A route, `HandleFunc(path, f).Methods(methods...)`. -/
structure Route where
  path : String
  methods : List String
  handler : String
  deriving DecidableEq, Repr

/-- A subrouter, `r.PathPrefix(prefix).Subrouter()`, with the middleware given to
its `Use`, in order, and its routes. -/
structure Subrouter where
  pathPrefix : String
  middlewares : List Stage
  routes : List Route
  deriving DecidableEq, Repr

/-- The router `mux.NewRouter()`, with the middleware given to its `Use`, in order,
and its subrouters in the order they were created. -/
structure Router where
  middlewares : List Stage
  subrouters : List Subrouter
  deriving DecidableEq, Repr

/-- The call `r.Use(mw)` on the router: the middleware is appended. -/
def Router.Use (r : Router) (mw : Stage) : Router :=
  { r with middlewares := r.middlewares ++ [mw] }

/-- The call `s.Use(mw)` on a subrouter. -/
def Subrouter.Use (s : Subrouter) (mw : Stage) : Subrouter :=
  { s with middlewares := s.middlewares ++ [mw] }

/-- The call `s.HandleFunc(path, f).Methods(method)`. -/
def Subrouter.HandleFunc (s : Subrouter) (path handler method : String) : Subrouter :=
  { s with routes := s.routes ++ [⟨path, [method], handler⟩] }

/-- The middleware gorilla/mux wraps around the handler of a route of subrouter `s`,
outermost first: the middleware of the router in the order of its `Use` calls,
then the middleware of the subrouter. -/
def Router.chain (r : Router) (s : Subrouter) : List Stage :=
  r.middlewares ++ s.middlewares

/-- The route of a subrouter that matches a method and a path, if any. -/
def Subrouter.route (s : Subrouter) (method path : String) : Option Route :=
  s.routes.find? (fun rt => decide (s.pathPrefix ++ rt.path = path) && rt.methods.contains method)

/-- Matching in gorilla/mux: the subrouters are tried in order; the first with a
matching route gives the middleware chain and the handler. With `none` no route
matches, and the not-found handler answers without any middleware. -/
def Router.dispatch (r : Router) (method path : String) : Option (List Stage × String) :=
  r.subrouters.findSome? (fun s =>
    match s.route method path with
    | some rt => some (r.chain s, rt.handler)
    | none => none)

/-- The subrouter `api` of `RegisterRoutes`. -/
def apiRouter : Subrouter :=
  Subrouter.HandleFunc ⟨"/api", [], []⟩ "/probe" "Probe" "GET"

/-- The subrouter `private` of `RegisterRoutes`. -/
def privateRouter : Subrouter :=
  Subrouter.Use ⟨"/api", [], []⟩ .ClerkAuthMiddleware

/-- Model of `RegisterRoutes`; `env` is `h.conf.Env`. -/
def RegisterRoutes (env : String) : Router :=
  let r0 : Router := ⟨[], []⟩
  let r1 := r0.Use .LoggerMiddleware
  let r2 := r1.Use .RateLimiterMiddleware
  let r3 := if env ≠ "local" then r2.Use .monitor else r2
  { r3 with subrouters := [apiRouter, privateRouter] }

/-! ## Order of the conditions -/

/-- The clauses the loop adds for the conditions it accepts, in the order visited. -/
def acceptedClauses {F : Type} (ParseFloat : GoString → Except NumError F)
    (conditions : List (String × Value F)) : Query F :=
  conditions.flatMap (fun c =>
    match conditionStep ParseFloat [] c.1 c.2 with
    | .continue clauses => clauses
    | _ => [])

/-! ## The rate limiter behind the router -/

/-- The rate limiter as the router of `RegisterRoutes` runs it. `r.Use` is given the
constructor `h.RateLimiterMiddleware`, and gorilla/mux applies the constructors of
the chain to the handler each time a request matches a route. Every matched
request is therefore answered by a new handler, whose `clients` map has just been
made and is empty; each sweep runs on the map of its own handler and touches no
other. -/
def serveRouted {L S : Type} (lim : LimiterOps L) :
    List (Event S) → List (Request S × Served S)
  | [] => []
  | .request r t :: rest =>
    (r, (RateLimiterMiddleware lim [] r t).2) :: serveRouted lim rest
  | .sweep _ :: rest => serveRouted lim rest

/-! ## Fixtures for closed statements -/

/-- A stand-in for `strconv.ParseFloat` that rejects every text. It is used only at
inputs on which the code does not call `ParseFloat`, or calls it on a text that
is not a number. -/
def rejectFloat : GoString → Except NumError Unit := fun _ => .error .ErrSyntax

/-- A database whose table is empty and whose statements succeed. -/
def emptyStore : Store Unit Unit := ⟨fun _ => .ok 0, fun _ _ _ => .ok []⟩

/-- A request with the given remote address and no `Authorization` header. -/
def requestFrom (addr : String) : Request Unit := ⟨ofAscii addr, [], none⟩

/-- A request with the given `Authorization` header. -/
def requestWithAuth (value : String) : Request Unit :=
  ⟨ofAscii "10.0.0.1:4000", [ofAscii value], none⟩

/-- A verifier that rejects every token. -/
def rejectToken : GoString → Except String Unit := fun _ => .error "invalid token"

/-- A verifier that accepts every token. -/
def acceptToken : GoString → Except String Unit := fun _ => .ok ()

/-! # Theorems -/

/-! ## Machine arithmetic -/

theorem wrap64_of_fits (x : Int) (hlo : minInt64 ≤ x) (hhi : x ≤ maxInt64) : wrap64 x = x := by
  unfold minInt64 at hlo
  unfold maxInt64 at hhi
  unfold wrap64
  omega

theorem ceilDiv_eq_ceil (n p : Int) (hp : 1 ≤ p) : (n + p - 1) / p = ⌈(n : ℚ) / (p : ℚ)⌉ := by
  symm
  rw [Int.ceil_eq_iff]
  have hq : (0 : ℚ) < (p : ℚ) := by exact_mod_cast hp
  have e := Int.ediv_add_emod (n + p - 1) p
  have r0 := Int.emod_nonneg (n + p - 1) (show p ≠ 0 by omega)
  have r1 := Int.emod_lt_of_pos (n + p - 1) (show 0 < p by omega)
  set z := (n + p - 1) / p
  set r := (n + p - 1) % p
  constructor
  · rw [lt_div_iff₀ hq]
    have : (z - 1) * p < n := by nlinarith
    exact_mod_cast this
  · rw [div_le_iff₀ hq]
    have : n ≤ z * p := by nlinarith
    exact_mod_cast this

theorem totalPages_of_fits (totalRecords pageSize : Int)
    (hrec : 0 ≤ totalRecords) (hsize : 1 ≤ pageSize)
    (hfit : totalRecords + pageSize - 1 ≤ maxInt64) :
    totalPages totalRecords pageSize = some ⌈(totalRecords : ℚ) / (pageSize : ℚ)⌉ := by
  have hmax : maxInt64 = 9223372036854775807 := rfl
  have hmin : minInt64 = -9223372036854775808 := rfl
  have hne : pageSize ≠ 0 := by omega
  have h1 : wrap64 (totalRecords + pageSize) = totalRecords + pageSize - 18446744073709551616
      ∨ wrap64 (totalRecords + pageSize) = totalRecords + pageSize := by
    unfold wrap64
    omega
  have h2 : wrap64 (wrap64 (totalRecords + pageSize) - 1) = totalRecords + pageSize - 1 := by
    rcases h1 with h | h <;> rw [h] <;> unfold wrap64 <;> omega
  have h3 : Int.tdiv (totalRecords + pageSize - 1) pageSize
      = (totalRecords + pageSize - 1) / pageSize :=
    Int.tdiv_eq_ediv (by omega) (by omega)
  have h4 : 0 ≤ (totalRecords + pageSize - 1) / pageSize :=
    Int.ediv_nonneg (by omega) (by omega)
  have h5 : (totalRecords + pageSize - 1) / pageSize ≤ totalRecords + pageSize - 1 :=
    Int.ediv_le_self _ (by omega)
  unfold totalPages
  rw [if_neg hne, h2, h3, wrap64_of_fits _ (by omega) (by omega), ceilDiv_eq_ceil _ _ hsize]

/-! ## C1: total pages -/

/-- C1, as amended: for `totalRecords >= 0` and `pageSize >= 1` with
`totalRecords + pageSize - 1` within int64, the division does not divide by zero,
the computed `totalPages` is `ceil(totalRecords / pageSize)`, and that is the page
count `GetAllRecords` and `GetFilteredPaginatedRecords` return when the count
query reports `totalRecords` and the fetch succeeds. -/
theorem totalPages_eq_ceil (F T : Type) (totalRecords pageSize : Int)
    (hrec : 0 ≤ totalRecords) (hsize : 1 ≤ pageSize)
    (hfit : totalRecords + pageSize - 1 ≤ maxInt64) :
    totalPages totalRecords pageSize = some ⌈(totalRecords : ℚ) / (pageSize : ℚ)⌉
    ∧ (∀ (db : Store F T) (page : Int) (records : List T),
        db.count [] = .ok totalRecords →
        db.find [] (pageOffset page pageSize) pageSize = .ok records →
        GetAllRecords db page pageSize
          = .returned ⟨some records, ⌈(totalRecords : ℚ) / (pageSize : ℚ)⌉, none,
              [.count [], .find [] (pageOffset page pageSize) pageSize]⟩)
    ∧ (∀ (ParseFloat : GoString → Except NumError F) (db : Store F T) (page : Int)
        (conditions : List (String × Value F)) (query : Query F) (records : List T),
        conditionLoop ParseFloat [] conditions = .continue query →
        db.count query = .ok totalRecords →
        db.find query (pageOffset page pageSize) pageSize = .ok records →
        GetFilteredPaginatedRecords ParseFloat db page pageSize conditions
          = .returned ⟨some records, ⌈(totalRecords : ℚ) / (pageSize : ℚ)⌉, none,
              [.count query, .find query (pageOffset page pageSize) pageSize]⟩) := by
  have hp := totalPages_of_fits totalRecords pageSize hrec hsize hfit
  refine ⟨hp, ?_, ?_⟩
  · intro db page records hc hf
    simp only [GetAllRecords, hc, hf, hp]
  · intro ParseFloat db page conditions query records hl hc hf
    simp only [GetFilteredPaginatedRecords, hl, hc, hf, hp]

/-- Witness of C1 (amended): 10 records in pages of 3. -/
theorem totalPages_eq_ceil_witness :
    (0 : Int) ≤ 10 ∧ (1 : Int) ≤ 3 ∧ (10 : Int) + 3 - 1 ≤ maxInt64
    ∧ totalPages 10 3 = some ⌈((10 : Int) : ℚ) / ((3 : Int) : ℚ)⌉ :=
  ⟨by decide, by decide, by decide,
    (totalPages_eq_ceil Unit Unit 10 3 (by decide) (by decide) (by decide)).1⟩

/-- Counterexample to C1 as stated: with 2 records and `pageSize = 2^63 - 1` the sum
`totalRecords + pageSize - 1` wraps to `-2^63`, and the code computes `-1` pages
where the ceiling is 1. -/
theorem totalPages_overflow_counterexample :
    (0 : Int) ≤ 2 ∧ (1 : Int) ≤ 9223372036854775807 ∧ 9223372036854775807 ≤ maxInt64
    ∧ totalPages 2 9223372036854775807 = some (-1)
    ∧ ⌈((2 : Int) : ℚ) / ((9223372036854775807 : Int) : ℚ)⌉ = 1 := by
  refine ⟨by decide, by decide, by decide, by decide, ?_⟩
  rw [Int.ceil_eq_iff]
  norm_num

/-! ## strconv.Atoi on decimal text -/

theorem le_foldl_digits (ds : List Nat) (acc : Nat) :
    acc ≤ ds.foldl (fun a d => 10 * a + d) acc := by
  induction ds generalizing acc with
  | nil => simp
  | cons d ds ih =>
    simp only [List.foldl_cons]
    exact le_trans (by omega) (ih (10 * acc + d))

theorem parseUintLoop_digits (ds : List Nat) (acc : Nat) (hd : ∀ d ∈ ds, d < 10)
    (hfit : ds.foldl (fun a d => 10 * a + d) acc < 18446744073709551616) :
    parseUintLoop acc (ds.map (fun d => d + 48)) = .ok (ds.foldl (fun a d => 10 * a + d) acc) := by
  induction ds generalizing acc with
  | nil => simp [parseUintLoop]
  | cons d ds ih =>
    have hd0 : d < 10 := hd d (by simp)
    have hmono := le_foldl_digits ds (10 * acc + d)
    simp only [List.foldl_cons] at hfit hmono ⊢
    have hdig : isDigit (d + 48) = true := by simp [isDigit]; omega
    have hstep : ¬ (10 * acc + (d + 48 - 48) ≥ 18446744073709551616) := by omega
    simp only [List.map_cons, parseUintLoop, hdig, if_true, if_neg hstep]
    rw [show d + 48 - 48 = d by omega]
    exact ih _ (fun x hx => hd x (by simp [hx])) hfit

theorem foldl_reverse_digits (n : Nat) :
    (Nat.digits 10 n).reverse.foldl (fun a d => 10 * a + d) 0 = n := by
  rw [List.foldl_reverse]
  conv_rhs => rw [← Nat.ofDigits_digits 10 n]
  rw [Nat.ofDigits_eq_foldr]
  congr 1
  funext d a
  simp [Nat.add_comm]

theorem parseUintLoop_digitBytes (n : Nat) (hfit : n < 18446744073709551616) :
    parseUintLoop 0 (digitBytes n) = .ok n := by
  have h := parseUintLoop_digits (Nat.digits 10 n).reverse 0
    (fun d hd => Nat.digits_lt_base (by norm_num) (List.mem_reverse.mp hd))
    (by rw [foldl_reverse_digits]; exact hfit)
  rw [foldl_reverse_digits] at h
  rw [digitBytes, ← List.map_reverse]
  exact h

theorem digitBytes_cases (n : Nat) (hn : 0 < n) :
    ∃ c t, digitBytes n = c :: t ∧ 48 ≤ c ∧ c ≤ 57 := by
  have hne : (Nat.digits 10 n).reverse ≠ [] := by
    simp [Nat.digits_ne_nil_iff_ne_zero]; omega
  rw [digitBytes, ← List.map_reverse]
  cases hds : (Nat.digits 10 n).reverse with
  | nil => exact absurd hds hne
  | cons d ds =>
    have hd : d < 10 := Nat.digits_lt_base (by norm_num) (List.mem_reverse.mp (by rw [hds]; simp))
    exact ⟨d + 48, ds.map (fun d => d + 48), by simp, by omega, by omega⟩

theorem Atoi_decimalText (n : Int) (hlo : minInt64 ≤ n) (hhi : n ≤ maxInt64) :
    Atoi (decimalText n) = .ok n := by
  unfold minInt64 at hlo
  unfold maxInt64 at hhi
  unfold decimalText
  by_cases h0 : n = 0
  · subst h0; rfl
  · rw [if_neg h0]
    by_cases hneg : n < 0
    · rw [if_pos hneg]
      obtain ⟨c, t, hct, hc1, hc2⟩ := digitBytes_cases n.natAbs (by omega)
      have hp := parseUintLoop_digitBytes n.natAbs (by omega)
      have hne : digitBytes n.natAbs ≠ [] := by rw [hct]; simp
      have hbig : ¬ (n.natAbs > 9223372036854775808) := by omega
      simp [Atoi, hne, hp, hbig]
      rw [abs_of_neg hneg, neg_neg]
    · rw [if_neg hneg]
      obtain ⟨c, t, hct, hc1, hc2⟩ := digitBytes_cases n.natAbs (by omega)
      have hp := parseUintLoop_digitBytes n.natAbs (by omega)
      rw [hct] at hp ⊢
      have h43 : c ≠ 43 := by omega
      have h45 : c ≠ 45 := by omega
      have hbig : ¬ (n.natAbs ≥ 9223372036854775808) := by omega
      simp [Atoi, h43, h45, hp, hbig]
      omega


/-! ## C2: range conditions -/

theorem getLast?_append_one (text : GoString) (c : Nat) : (text ++ [c]).getLast? = some c := by
  simp

theorem priceBlock_range {F : Type} (query : Query F) (field : String) (text : GoString)
    (n : Int) (hn : Atoi text = .ok n) :
    priceBlock query field (.str (text ++ [45]))
      = some (.continue (query ++ [⟨field ++ " <= ?", .int n⟩]))
    ∧ priceBlock query field (.str (text ++ [43]))
      = some (.continue (query ++ [⟨field ++ " >= ?", .int n⟩])) := by
  constructor <;> simp [priceBlock, hn]

theorem pctBlock_range {F : Type} (ParseFloat : GoString → Except NumError F)
    (query : Query F) (field : String) (text : GoString)
    (x : F) (hx : ParseFloat text = .ok x) :
    pctBlock ParseFloat query field (.str (text ++ [45]))
      = some (.continue (query ++ [⟨field ++ " <= ?", .float x⟩]))
    ∧ pctBlock ParseFloat query field (.str (text ++ [43]))
      = some (.continue (query ++ [⟨field ++ " >= ?", .float x⟩])) := by
  constructor <;> simp [pctBlock, hx]

/-- C2, as amended: for every integer `n` that fits Go's 64-bit `int`, a condition on
`price` whose value is the decimal text of `n` followed by `-` makes the loop body
add exactly the clause `price <= n` and go on, and followed by `+` exactly
`price >= n`; for `pct_remaining`, a value whose text before the final `-` or `+`
`ParseFloat` accepts as `x` adds exactly `pct_remaining <= x`, respectively
`pct_remaining >= x`. No equality clause is added and no error is returned. -/
theorem range_condition_adds_bound (F : Type) (ParseFloat : GoString → Except NumError F)
    (query : Query F) (n : Int) (hlo : minInt64 ≤ n) (hhi : n ≤ maxInt64) :
    conditionStep ParseFloat query "price" (.str (decimalText n ++ ofAscii "-"))
      = .continue (query ++ [⟨"price <= ?", .int n⟩])
    ∧ conditionStep ParseFloat query "price" (.str (decimalText n ++ ofAscii "+"))
      = .continue (query ++ [⟨"price >= ?", .int n⟩])
    ∧ (∀ (text : GoString) (x : F), ParseFloat text = .ok x →
        conditionStep ParseFloat query "pct_remaining" (.str (text ++ ofAscii "-"))
          = .continue (query ++ [⟨"pct_remaining <= ?", .float x⟩])
        ∧ conditionStep ParseFloat query "pct_remaining" (.str (text ++ ofAscii "+"))
          = .continue (query ++ [⟨"pct_remaining >= ?", .float x⟩])) := by
  have hminus : ofAscii "-" = [45] := rfl
  have hplus : ofAscii "+" = [43] := rfl
  have hprice := priceBlock_range query "price" (decimalText n) n (Atoi_decimalText n hlo hhi)
  have hne : ¬ ("pct_remaining" = "price") := by decide
  refine ⟨?_, ?_, ?_⟩
  · rw [hminus, conditionStep, if_pos rfl, hprice.1]
    rfl
  · rw [hplus, conditionStep, if_pos rfl, hprice.2]
    rfl
  · intro text x hx
    have hpct := pctBlock_range ParseFloat query "pct_remaining" text x hx
    constructor
    · rw [hminus, conditionStep, if_neg hne, if_pos rfl, hpct.1]
      rfl
    · rw [hplus, conditionStep, if_neg hne, if_pos rfl, hpct.2]
      rfl

/-- Witness of C2 (amended): the condition `price = "100-"`. -/
theorem range_condition_adds_bound_witness :
    minInt64 ≤ 100 ∧ (100 : Int) ≤ maxInt64
    ∧ conditionStep rejectFloat [] "price" (.str (decimalText 100 ++ ofAscii "-"))
      = .continue ([] ++ [⟨"price <= ?", .int 100⟩]) :=
  ⟨by decide, by decide,
    (range_condition_adds_bound Unit rejectFloat [] 100 (by decide) (by decide)).1⟩

/-- Counterexample to C2 as stated: for the integer `n = 2^63` the value
`"9223372036854775808-"` is the decimal text of `n` followed by `-`, but
`strconv.Atoi` reports a range error and the call returns `invalid price value`
without building a query. -/
theorem range_condition_counterexample :
    decimalText 9223372036854775808 ++ ofAscii "-" = ofAscii "9223372036854775808-"
    ∧ conditionStep rejectFloat [] "price" (.str (ofAscii "9223372036854775808-"))
      = .fail (.invalidPrice (ofAscii "9223372036854775808") .ErrRange)
    ∧ GetFilteredPaginatedRecords rejectFloat emptyStore 1 10
        [("price", .str (ofAscii "9223372036854775808-"))]
      = .returned ⟨none, 0, some (.invalidPrice (ofAscii "9223372036854775808") .ErrRange), []⟩ := by
  refine ⟨?_, by rfl, by rfl⟩
  simp [decimalText, digitBytes, ofAscii]

/-! ## The condition loop -/

theorem conditionLoop_append {F : Type} (ParseFloat : GoString → Except NumError F)
    (before rest : List (String × Value F)) (query : Query F) :
    conditionLoop ParseFloat query (before ++ rest)
      = match conditionLoop ParseFloat query before with
        | .continue query1 => conditionLoop ParseFloat query1 rest
        | .fail e => .fail e
        | .crash => .crash := by
  induction before generalizing query with
  | nil => simp [conditionLoop]
  | cons c before ih =>
    obtain ⟨field, value⟩ := c
    simp only [List.cons_append, conditionLoop]
    cases conditionStep ParseFloat query field value with
    | «continue» query1 => exact ih query1
    | fail e => rfl
    | crash => rfl

theorem conditionLoop_fail_at {F : Type} (ParseFloat : GoString → Except NumError F)
    (before rest : List (String × Value F)) (query : Query F) (field : String)
    (value : Value F) (e : QueryError)
    (hbefore : conditionLoop ParseFloat [] before = .continue query)
    (hstep : conditionStep ParseFloat query field value = .fail e) :
    conditionLoop ParseFloat [] (before ++ (field, value) :: rest) = .fail e := by
  rw [conditionLoop_append, hbefore]
  simp only [conditionLoop, hstep]

theorem GetFiltered_fail_at {F T : Type} (ParseFloat : GoString → Except NumError F)
    (db : Store F T) (page pageSize : Int)
    (before rest : List (String × Value F)) (query : Query F) (field : String)
    (value : Value F) (e : QueryError)
    (hbefore : conditionLoop ParseFloat [] before = .continue query)
    (hstep : conditionStep ParseFloat query field value = .fail e) :
    GetFilteredPaginatedRecords ParseFloat db page pageSize (before ++ (field, value) :: rest)
      = .returned ⟨none, 0, some e, []⟩ := by
  simp only [GetFilteredPaginatedRecords,
    conditionLoop_fail_at ParseFloat before rest query field value e hbefore hstep]

theorem priceStep_not_string {F : Type} (ParseFloat : GoString → Except NumError F)
    (query : Query F) (value : Value F) (hv : ∀ s, value ≠ .str s) :
    conditionStep ParseFloat query "price" value = .fail .priceNotString := by
  cases value with
  | str s => exact absurd rfl (hv s)
  | int n => rfl
  | float x => rfl
  | bool b => rfl
  | null => rfl

theorem pctStep_not_string {F : Type} (ParseFloat : GoString → Except NumError F)
    (query : Query F) (value : Value F) (hv : ∀ s, value ≠ .str s) :
    conditionStep ParseFloat query "pct_remaining" value = .fail .pctNotString := by
  cases value with
  | str s => exact absurd rfl (hv s)
  | int n => rfl
  | float x => rfl
  | bool b => rfl
  | null => rfl

theorem getLast?_of_ne_nil (s : GoString) (hs : s ≠ []) : ∃ c, s.getLast? = some c := by
  cases h : s.getLast? with
  | none => exact absurd (List.getLast?_eq_none_iff.mp h) hs
  | some c => exact ⟨c, rfl⟩

theorem priceStep_parse_error {F : Type} (ParseFloat : GoString → Except NumError F)
    (query : Query F) (s : GoString) (e : NumError) (hs : s ≠ [])
    (he : Atoi s.dropLast = .error e) :
    conditionStep ParseFloat query "price" (.str s) = .fail (.invalidPrice s.dropLast e) := by
  obtain ⟨c, hc⟩ := getLast?_of_ne_nil s hs
  simp [conditionStep, priceBlock, hc, he]

theorem pctStep_parse_error {F : Type} (ParseFloat : GoString → Except NumError F)
    (query : Query F) (s : GoString) (e : NumError) (hs : s ≠ [])
    (he : ParseFloat s.dropLast = .error e) :
    conditionStep ParseFloat query "pct_remaining" (.str s)
      = .fail (.invalidPct s.dropLast e) := by
  obtain ⟨c, hc⟩ := getLast?_of_ne_nil s hs
  simp [conditionStep, pctBlock, hc, he]

/-! ## C3: the empty string -/

/-- C3, failing input: with the condition `price = ""` (and likewise
`pct_remaining = ""`) the expression `str[len(str)-1]` indexes position -1 and
`GetFilteredPaginatedRecords` panics instead of returning an error. -/
theorem empty_value_panics :
    GetFilteredPaginatedRecords rejectFloat emptyStore 1 10 [("price", .str (ofAscii ""))]
      = .panicked .indexOutOfRange []
    ∧ GetFilteredPaginatedRecords rejectFloat emptyStore 1 10
        [("pct_remaining", .str (ofAscii ""))]
      = .panicked .indexOutOfRange [] :=
  ⟨rfl, rfl⟩

/-! ## C4: value-type and parse errors -/

/-- C4, as amended: when every condition the loop visits before it is accepted, a
condition on `price` (on `pct_remaining`) whose value is not a string makes
`GetFilteredPaginatedRecords` return the error `value (price) is not a string`
(`value (pct_remaining) is not a string`), and one whose value is a non-empty
string whose text without its last byte `Atoi` (`ParseFloat`) rejects makes it
return `invalid price value` (`invalid pct_remaining value`); each time with
no records, total pages 0 and no count or fetch statement issued. -/
theorem first_rejected_condition (F T : Type) (ParseFloat : GoString → Except NumError F)
    (db : Store F T) (page pageSize : Int)
    (before rest : List (String × Value F)) (query : Query F)
    (hbefore : conditionLoop ParseFloat [] before = .continue query) :
    (∀ value : Value F, (∀ s, value ≠ .str s) →
      GetFilteredPaginatedRecords ParseFloat db page pageSize (before ++ ("price", value) :: rest)
        = .returned ⟨none, 0, some .priceNotString, []⟩)
    ∧ (∀ value : Value F, (∀ s, value ≠ .str s) →
      GetFilteredPaginatedRecords ParseFloat db page pageSize
          (before ++ ("pct_remaining", value) :: rest)
        = .returned ⟨none, 0, some .pctNotString, []⟩)
    ∧ (∀ (s : GoString) (e : NumError), s ≠ [] → Atoi s.dropLast = .error e →
      GetFilteredPaginatedRecords ParseFloat db page pageSize
          (before ++ ("price", .str s) :: rest)
        = .returned ⟨none, 0, some (.invalidPrice s.dropLast e), []⟩)
    ∧ (∀ (s : GoString) (e : NumError), s ≠ [] → ParseFloat s.dropLast = .error e →
      GetFilteredPaginatedRecords ParseFloat db page pageSize
          (before ++ ("pct_remaining", .str s) :: rest)
        = .returned ⟨none, 0, some (.invalidPct s.dropLast e), []⟩) := by
  refine ⟨?_, ?_, ?_, ?_⟩
  · intro value hv
    exact GetFiltered_fail_at ParseFloat db page pageSize before rest query _ _ _ hbefore
      (priceStep_not_string ParseFloat query value hv)
  · intro value hv
    exact GetFiltered_fail_at ParseFloat db page pageSize before rest query _ _ _ hbefore
      (pctStep_not_string ParseFloat query value hv)
  · intro s e hs he
    exact GetFiltered_fail_at ParseFloat db page pageSize before rest query _ _ _ hbefore
      (priceStep_parse_error ParseFloat query s e hs he)
  · intro s e hs he
    exact GetFiltered_fail_at ParseFloat db page pageSize before rest query _ _ _ hbefore
      (pctStep_parse_error ParseFloat query s e hs he)

/-- Witness of C4 (amended): after the accepted condition `name = "bob"`, the
condition `price = 5` (an integer, not a string) is rejected. -/
theorem first_rejected_condition_witness :
    conditionLoop rejectFloat [] [("name", .str (ofAscii "bob"))]
      = .continue [⟨"name = ?", .str (ofAscii "bob")⟩]
    ∧ GetFilteredPaginatedRecords rejectFloat emptyStore 1 10
        ([("name", .str (ofAscii "bob"))] ++ ("price", .int 5) :: [])
      = .returned ⟨none, 0, some .priceNotString, []⟩ :=
  ⟨rfl, (first_rejected_condition Unit Unit rejectFloat emptyStore 1 10
      [("name", .str (ofAscii "bob"))] [] [⟨"name = ?", .str (ofAscii "bob")⟩] rfl).1
      (.int 5) (fun s h => by cases h)⟩

/-- Counterexample to C4 as stated: the conditions `price = "x-"` and
`pct_remaining = 7`. The value for `pct_remaining` is not a string, yet when the
loop visits `price` first the call returns `invalid price value`, which is not a
value-type error; visiting `pct_remaining` first it returns
`value (pct_remaining) is not a string`, although the text `x` before the suffix
of the `price` value is not an integer. -/
theorem first_rejected_condition_counterexample :
    GetFilteredPaginatedRecords rejectFloat emptyStore 1 10
        [("price", .str (ofAscii "x-")), ("pct_remaining", .int 7)]
      = .returned ⟨none, 0, some (.invalidPrice (ofAscii "x") .ErrSyntax), []⟩
    ∧ GetFilteredPaginatedRecords rejectFloat emptyStore 1 10
        [("pct_remaining", .int 7), ("price", .str (ofAscii "x-"))]
      = .returned ⟨none, 0, some .pctNotString, []⟩
    ∧ Atoi (ofAscii "x") = .error .ErrSyntax
    ∧ QueryError.invalidPrice (ofAscii "x") .ErrSyntax ≠ .pctNotString
    ∧ QueryError.pctNotString ≠ .invalidPrice (ofAscii "x") .ErrSyntax :=
  ⟨rfl, rfl, rfl, by decide, by decide⟩

/-! ## C5: equality conditions -/

theorem conditionStep_other {F : Type} (ParseFloat : GoString → Except NumError F)
    (query : Query F) (field : String) (value : Value F)
    (hprice : field ≠ "price") (hpct : field ≠ "pct_remaining") :
    conditionStep ParseFloat query field value
      = .continue (query ++ [⟨field ++ " = ?", value⟩]) := by
  simp only [conditionStep, if_neg hprice, if_neg hpct]

/-- C5, as amended: every condition on a field other than `price` and
`pct_remaining` is rendered as exactly one clause `field = value` and causes no
error; for a condition set with only such conditions the loop ends with the
conjunction of one equality clause per condition, in the order visited. -/
theorem equality_conditions (F : Type) (ParseFloat : GoString → Except NumError F)
    (conditions : List (String × Value F)) (query : Query F)
    (hfields : ∀ c ∈ conditions, c.1 ≠ "price" ∧ c.1 ≠ "pct_remaining") :
    (∀ c ∈ conditions, ∀ q : Query F,
      conditionStep ParseFloat q c.1 c.2 = .continue (q ++ [⟨c.1 ++ " = ?", c.2⟩]))
    ∧ conditionLoop ParseFloat query conditions
      = .continue (query ++ conditions.map (fun c => ⟨c.1 ++ " = ?", c.2⟩)) := by
  constructor
  · intro c hc q
    exact conditionStep_other ParseFloat q c.1 c.2 (hfields c hc).1 (hfields c hc).2
  · induction conditions generalizing query with
    | nil => simp [conditionLoop]
    | cons c conditions ih =>
      obtain ⟨field, value⟩ := c
      have hc := hfields (field, value) (by simp)
      simp only [conditionLoop, conditionStep_other ParseFloat query field value hc.1 hc.2]
      rw [ih _ (fun d hd => hfields d (by simp [hd]))]
      simp

/-- Witness of C5 (amended): the conditions `name = "bob"` and `age = 3`. -/
theorem equality_conditions_witness :
    (∀ c ∈ ([("name", .str (ofAscii "bob")), ("age", .int 3)] : List (String × Value Unit)),
      c.1 ≠ "price" ∧ c.1 ≠ "pct_remaining")
    ∧ conditionLoop rejectFloat [] [("name", .str (ofAscii "bob")), ("age", .int 3)]
      = .continue ([] ++ ([("name", .str (ofAscii "bob")), ("age", .int 3)] :
          List (String × Value Unit)).map (fun c => ⟨c.1 ++ " = ?", c.2⟩)) :=
  ⟨by simp, (equality_conditions Unit rejectFloat
      [("name", .str (ofAscii "bob")), ("age", .int 3)] [] (by simp)).2⟩

/-- Counterexample to C5 as stated: the condition `price = 100`, an integer, does
not use range syntax, yet it is not rendered as `price = 100`: the call returns
`value (price) is not a string`. The string `"5"` on `price` does not end in `+`
or `-` either, and is rejected with `invalid price value`. -/
theorem equality_conditions_counterexample :
    conditionStep rejectFloat [] "price" (.int 100) = .fail .priceNotString
    ∧ GetFilteredPaginatedRecords rejectFloat emptyStore 1 10 [("price", .int 100)]
      = .returned ⟨none, 0, some .priceNotString, []⟩
    ∧ GetFilteredPaginatedRecords rejectFloat emptyStore 1 10 [("price", .str (ofAscii "5"))]
      = .returned ⟨none, 0, some (.invalidPrice (ofAscii "") .ErrSyntax), []⟩ :=
  ⟨rfl, rfl, rfl⟩

/-! ## The client map -/

theorem lookup_store_same {L : Type} (ip : GoString) (c : Client L) (m : Clients L) :
    lookupClient ip (storeClient ip c m) = some c := by
  induction m with
  | nil => simp [storeClient, lookupClient]
  | cons e m ih =>
    obtain ⟨k, c0⟩ := e
    by_cases hk : k = ip
    · simp [storeClient, lookupClient, hk]
    · simp [storeClient, lookupClient, hk, ih]

theorem lookup_store_other {L : Type} (ip other : GoString) (c : Client L) (m : Clients L)
    (hne : other ≠ ip) :
    lookupClient other (storeClient ip c m) = lookupClient other m := by
  induction m with
  | nil => simp [storeClient, lookupClient, Ne.symm hne]
  | cons e m ih =>
    obtain ⟨k, c0⟩ := e
    by_cases hk : k = ip
    · have hko : ¬ k = other := fun h => hne (h ▸ hk)
      simp [storeClient, lookupClient, hk, Ne.symm hne]
    · by_cases hko : k = other
      · subst hko
        simp [storeClient, lookupClient, hk]
      · simp [storeClient, lookupClient, hk, hko, ih]

theorem lookup_delete_same {L : Type} (ip : GoString) (m : Clients L) :
    lookupClient ip (deleteClient ip m) = none := by
  induction m with
  | nil => simp [deleteClient, lookupClient]
  | cons e m ih =>
    obtain ⟨k, c0⟩ := e
    by_cases hk : k = ip
    · simp [deleteClient, hk, ih]
    · simp [deleteClient, lookupClient, hk, ih]

theorem lookup_delete_other {L : Type} (ip other : GoString) (m : Clients L)
    (hne : other ≠ ip) :
    lookupClient other (deleteClient ip m) = lookupClient other m := by
  induction m with
  | nil => simp [deleteClient, lookupClient]
  | cons e m ih =>
    obtain ⟨k, c0⟩ := e
    by_cases hk : k = ip
    · have hko : ¬ k = other := fun h => hne (h ▸ hk)
      simp [deleteClient, lookupClient, hk, Ne.symm hne, ih]
    · by_cases hko : k = other
      · subst hko
        simp [deleteClient, lookupClient, hk]
      · simp [deleteClient, lookupClient, hk, hko, ih]

theorem lookup_of_not_key {L : Type} (ip : GoString) (m : Clients L)
    (hkey : ip ∉ m.map Prod.fst) : lookupClient ip m = none := by
  induction m with
  | nil => rfl
  | cons e m ih =>
    obtain ⟨k, c0⟩ := e
    simp only [List.map_cons, List.mem_cons, not_or] at hkey
    simp [lookupClient, Ne.symm hkey.1, ih hkey.2]

/-! ## The sweep -/

theorem survivor_idem {L : Type} (now : Int) (o : Option (Client L)) :
    survivor now (survivor now o) = survivor now o := by
  cases o with
  | none => rfl
  | some c =>
    by_cases h : now - c.lastSeen > fiveMinutes
    · simp [survivor, h]
    · simp [survivor, h]

theorem lookup_sweepVisit {L : Type} (now : Int) (m : Clients L) (ip k : GoString) :
    lookupClient ip (sweepVisit now m k)
      = if ip = k then survivor now (lookupClient ip m) else lookupClient ip m := by
  unfold sweepVisit
  by_cases hk : ip = k
  · subst hk
    rw [if_pos rfl]
    cases hl : lookupClient ip m with
    | none => simp [survivor, hl]
    | some c =>
      by_cases h : now - c.lastSeen > fiveMinutes
      · simp [survivor, h, lookup_delete_same]
      · simp [survivor, h, hl]
  · rw [if_neg hk]
    cases lookupClient k m with
    | none => rfl
    | some c =>
      by_cases h : now - c.lastSeen > fiveMinutes
      · simp [h, lookup_delete_other k ip m hk]
      · simp [h]

theorem lookup_foldl_sweepVisit {L : Type} (now : Int) (ip : GoString) (ks : List GoString)
    (m : Clients L) :
    lookupClient ip (ks.foldl (sweepVisit now) m)
      = if ip ∈ ks then survivor now (lookupClient ip m) else lookupClient ip m := by
  induction ks generalizing m with
  | nil => simp
  | cons k ks ih =>
    rw [List.foldl_cons, ih, lookup_sweepVisit]
    by_cases hk : ip = k
    · simp [hk, survivor_idem]
    · simp [hk]

theorem lookup_sweep {L : Type} (now : Int) (ip : GoString) (m : Clients L) :
    lookupClient ip (sweep now m) = survivor now (lookupClient ip m) := by
  unfold sweep
  rw [lookup_foldl_sweepVisit]
  by_cases hkey : ip ∈ m.map Prod.fst
  · rw [if_pos hkey]
  · rw [if_neg hkey, lookup_of_not_key ip m hkey]
    rfl

/-! ## C8: eviction -/

/-- C8: after one pass of the sweep run at time `now`, an entry whose `lastSeen` is
more than five minutes before `now` is absent from the map, and every other entry
is present with its limiter and `lastSeen` unchanged; no entry appears. -/
theorem sweep_evicts_stale_only (L : Type) (now : Int) (clients : Clients L) (ip : GoString) :
    lookupClient ip (sweep now clients)
      = match lookupClient ip clients with
        | some client => if now - client.lastSeen > fiveMinutes then none else some client
        | none => none := by
  rw [lookup_sweep]
  cases lookupClient ip clients <;> rfl

/-! ## C7: the decision depends on the caller's address only -/

theorem serve_other {L S : Type} (lim : LimiterOps L) (m : Clients L) (r : Request S)
    (t : Readings) (B port ip : GoString)
    (hfrom : SplitHostPort r.RemoteAddr = some (B, port)) (hne : ip ≠ B) :
    lookupClient ip (RateLimiterMiddleware lim m r t).1 = lookupClient ip m := by
  unfold RateLimiterMiddleware
  simp only [hfrom]
  split <;> exact lookup_store_other B ip _ m hne

theorem serve_not_from {L S : Type} (lim : LimiterOps L) (m : Clients L) (r : Request S)
    (t : Readings) (A : GoString) (hnot : isFrom A r = false) :
    lookupClient A (RateLimiterMiddleware lim m r t).1 = lookupClient A m := by
  cases hs : SplitHostPort r.RemoteAddr with
  | none => simp [RateLimiterMiddleware, hs]
  | some hp =>
    obtain ⟨B, port⟩ := hp
    have hne : A ≠ B := by
      intro h
      simp [isFrom, hs, h] at hnot
    exact serve_other lim m r t B port A hs hne

theorem serve_from_agree {L S : Type} (lim : LimiterOps L) (m1 m2 : Clients L)
    (r : Request S) (t : Readings) (A : GoString) (hfrom : isFrom A r = true)
    (hagree : lookupClient A m1 = lookupClient A m2) :
    (RateLimiterMiddleware lim m1 r t).2 = (RateLimiterMiddleware lim m2 r t).2
    ∧ lookupClient A (RateLimiterMiddleware lim m1 r t).1
      = lookupClient A (RateLimiterMiddleware lim m2 r t).1 := by
  cases hs : SplitHostPort r.RemoteAddr with
  | none => simp [isFrom, hs] at hfrom
  | some hp =>
    obtain ⟨B, port⟩ := hp
    have hB : B = A := by simpa [isFrom, hs] using hfrom
    subst hB
    unfold RateLimiterMiddleware
    simp only [hs, hagree]
    constructor
    · split <;> rfl
    · split <;> simp only [lookup_store_same]

theorem answersTo_filter {L S : Type} (lim : LimiterOps L) (A : GoString)
    (events : List (Event S)) (m1 m2 : Clients L)
    (hagree : lookupClient A m1 = lookupClient A m2) :
    answersTo lim A m1 events = answersTo lim A m2 (events.filter (concerns A)) := by
  induction events generalizing m1 m2 with
  | nil => rfl
  | cons e events ih =>
    cases e with
    | sweep now =>
      have hnext : lookupClient A (sweep now m1) = lookupClient A (sweep now m2) := by
        rw [lookup_sweep, lookup_sweep, hagree]
      have h := ih (sweep now m1) (sweep now m2) hnext
      simpa [answersTo, serveAll, concerns, List.filter_cons] using h
    | request r t =>
      by_cases hfrom : isFrom A r = true
      · obtain ⟨hresp, hnext⟩ := serve_from_agree lim m1 m2 r t A hfrom hagree
        have h := ih _ _ hnext
        simp only [answersTo] at h
        simp [answersTo, serveAll, concerns, List.filter_cons, hfrom, hresp, h]
      · have hnot : isFrom A r = false := by simpa using hfrom
        have hnext : lookupClient A (RateLimiterMiddleware lim m1 r t).1 = lookupClient A m2 := by
          rw [serve_not_from lim m1 r t A hnot, hagree]
        have h := ih _ m2 hnext
        simp only [answersTo] at h
        simp [answersTo, serveAll, concerns, List.filter_cons, hnot, h]

/-- C7: the answers of the rate limiter to the requests from address `A` depend only
on those requests, their clock readings and the sweeps: two runs that agree on the
requests from `A` and on the sweeps, started from the same map, answer every
request from `A` alike (same response, forwarded in the one iff in the other),
whatever requests other addresses make. And a request from address `B` changes no
entry of the client map other than the one of `B`. -/
theorem decision_depends_on_address_only (L S : Type) (lim : LimiterOps L) (A : GoString)
    (clients : Clients L) (run1 run2 : List (Event S))
    (hsame : run1.filter (concerns A) = run2.filter (concerns A)) :
    answersTo lim A clients run1 = answersTo lim A clients run2
    ∧ (∀ (m : Clients L) (r : Request S) (t : Readings) (B port ip : GoString),
        SplitHostPort r.RemoteAddr = some (B, port) → ip ≠ B →
        lookupClient ip (RateLimiterMiddleware lim m r t).1 = lookupClient ip m) := by
  constructor
  · rw [answersTo_filter lim A run1 clients clients rfl,
      answersTo_filter lim A run2 clients clients rfl, hsame]
  · intro m r t B port ip hfrom hne
    exact serve_other lim m r t B port ip hfrom hne

/-- Witness of C7: a request from 10.0.0.2 between two requests from 10.0.0.1 does
not change the answers to the latter. -/
theorem decision_depends_on_address_only_witness :
    ([.request (requestFrom "10.0.0.1:4000") ⟨5, 5, 5⟩,
      .request (requestFrom "10.0.0.2:4000") ⟨6, 6, 6⟩,
      .request (requestFrom "10.0.0.1:4001") ⟨7, 7, 7⟩] : List (Event Unit)).filter
        (concerns (ofAscii "10.0.0.1"))
      = ([.request (requestFrom "10.0.0.1:4000") ⟨5, 5, 5⟩,
          .request (requestFrom "10.0.0.1:4001") ⟨7, 7, 7⟩] : List (Event Unit)).filter
            (concerns (ofAscii "10.0.0.1"))
    ∧ answersTo tokenBucket (ofAscii "10.0.0.1") []
        [.request (requestFrom "10.0.0.1:4000") ⟨5, 5, 5⟩,
         .request (requestFrom "10.0.0.2:4000") ⟨6, 6, 6⟩,
         .request (requestFrom "10.0.0.1:4001") ⟨7, 7, 7⟩]
      = answersTo tokenBucket (ofAscii "10.0.0.1") []
        [.request (requestFrom "10.0.0.1:4000") ⟨5, 5, 5⟩,
         .request (requestFrom "10.0.0.1:4001") ⟨7, 7, 7⟩] :=
  ⟨rfl, (decision_depends_on_address_only Bucket Unit tokenBucket (ofAscii "10.0.0.1") []
      [.request (requestFrom "10.0.0.1:4000") ⟨5, 5, 5⟩,
       .request (requestFrom "10.0.0.2:4000") ⟨6, 6, 6⟩,
       .request (requestFrom "10.0.0.1:4001") ⟨7, 7, 7⟩]
      [.request (requestFrom "10.0.0.1:4000") ⟨5, 5, 5⟩,
       .request (requestFrom "10.0.0.1:4001") ⟨7, 7, 7⟩] rfl).1⟩

/-! ## Burst and refill on one handler -/

theorem allow_full (now last : Int) :
    tokenBucket.Allow now ⟨3, 6, 6000000000, last⟩ = (true, ⟨3, 6, 5000000000, now⟩) := by
  simp only [tokenBucket]
  have hmin : min ((6 : Int) * 1000000000)
      (6000000000 + 3 * (if now < last then 0 else now - last)) = (6000000000 : Int) := by
    split <;> omega
  rw [hmin]
  rfl

theorem allow_same_instant (now tokens : Int) (hlo : 1000000000 ≤ tokens)
    (hhi : tokens ≤ 6000000000) :
    tokenBucket.Allow now ⟨3, 6, tokens, now⟩ = (true, ⟨3, 6, tokens - 1000000000, now⟩) := by
  have hcap : ((6 : Int) * 1000000000) = 6000000000 := by norm_num
  simp only [tokenBucket, lt_irrefl, if_false, sub_self, mul_zero, add_zero, hcap]
  rw [min_eq_right hhi, if_pos hlo]

theorem allow_empty_same_instant (now : Int) :
    tokenBucket.Allow now ⟨3, 6, 0, now⟩ = (false, ⟨3, 6, 0, now⟩) := by
  simp [tokenBucket]

theorem allow_after_wait (now d : Int) (hwait : 1000000000 ≤ 3 * d) :
    (tokenBucket.Allow (now + d) ⟨3, 6, 0, now⟩).1 = true := by
  have hnot : ¬ (now + d < now) := by omega
  have hmin : (1000000000 : Int) ≤ min ((6 : Int) * 1000000000) (0 + 3 * (now + d - now)) := by
    rw [le_min_iff]
    constructor <;> omega
  simp only [tokenBucket, if_neg hnot, if_pos hmin]

theorem serveAll_request {L S : Type} (lim : LimiterOps L) (m : Clients L) (r : Request S)
    (t : Readings) (rest : List (Event S)) (ip port : GoString) (known : Client L)
    (hfrom : SplitHostPort r.RemoteAddr = some (ip, port))
    (hknown : (match lookupClient ip m with
      | some c => c
      | none => ⟨lim.NewLimiter 3 6, 0⟩) = known) :
    serveAll lim m (.request r t :: rest)
      = (r, if (lim.Allow t.allow known.limiter).1 = true then ⟨[], some r⟩
            else ⟨[.writeHeader 429, .encode (.message (lockedMessage t.stamp))], none⟩)
        :: serveAll lim (storeClient ip ⟨(lim.Allow t.allow known.limiter).2, t.seen⟩ m) rest := by
  simp only [serveAll, RateLimiterMiddleware, hfrom, hknown]
  cases (lim.Allow t.allow known.limiter).1 <;> simp

theorem split_of_isFrom {S : Type} (ip : GoString) (r : Request S) (hfrom : isFrom ip r = true) :
    ∃ port, SplitHostPort r.RemoteAddr = some (ip, port) := by
  cases hs : SplitHostPort r.RemoteAddr with
  | none => simp [isFrom, hs] at hfrom
  | some hp =>
    obtain ⟨host, port⟩ := hp
    have hhost : host = ip := by simpa [isFrom, hs] using hfrom
    exact ⟨port, by rw [hhost]⟩

theorem serve_burst {S : Type} (ip : GoString) (now : Int) (burst : List (Request S))
    (m : Clients Bucket) (tokens seen : Int)
    (hfrom : ∀ r ∈ burst, isFrom ip r = true)
    (hknown : lookupClient ip m = some ⟨⟨3, 6, tokens, now⟩, seen⟩)
    (hlo : (burst.length : Int) * 1000000000 ≤ tokens) (hhi : tokens ≤ 6000000000) :
    ∃ (m1 : Clients Bucket) (seen1 : Int),
      lookupClient ip m1
        = some ⟨⟨3, 6, tokens - (burst.length : Int) * 1000000000, now⟩, seen1⟩
      ∧ ∀ rest : List (Event S),
        serveAll tokenBucket m (burst.map (fun r => .request r ⟨now, now, now⟩) ++ rest)
          = burst.map (fun r => (r, ⟨[], some r⟩)) ++ serveAll tokenBucket m1 rest := by
  induction burst generalizing m tokens seen with
  | nil => exact ⟨m, seen, by simpa using hknown, fun rest => rfl⟩
  | cons r burst ih =>
    obtain ⟨port, hport⟩ := split_of_isFrom ip r (hfrom r (by simp))
    have hlen : ((r :: burst).length : Int) = (burst.length : Int) + 1 := by simp
    rw [hlen] at hlo
    have hone : 1000000000 ≤ tokens := by
      have : (0 : Int) ≤ (burst.length : Int) := Int.natCast_nonneg _
      nlinarith
    have hallow := allow_same_instant now tokens hone hhi
    obtain ⟨m1, seen1, hm1, hrun⟩ := ih
      (storeClient ip ⟨⟨3, 6, tokens - 1000000000, now⟩, now⟩ m) (tokens - 1000000000) now
      (fun x hx => hfrom x (by simp [hx])) (lookup_store_same ip _ m) (by linarith) (by linarith)
    refine ⟨m1, seen1, ?_, ?_⟩
    · rw [hm1, hlen]
      congr 3
      ring
    · intro rest
      have hstep := serveAll_request tokenBucket m r ⟨now, now, now⟩
        (burst.map (fun r => .request r ⟨now, now, now⟩) ++ rest) ip port
        ⟨⟨3, 6, tokens, now⟩, seen⟩ hport (by rw [hknown])
      simp only [hallow] at hstep
      simp only [List.map_cons, List.cons_append]
      rw [hstep, hrun rest]
      rfl

/-- One handler on its own map: for a client the map does not hold yet, six requests
from its address at the same instant `now` are all forwarded, a seventh at that
instant is answered with status 429 and the lock message and is not forwarded,
and a request at least a third of a second later (`d` nanoseconds,
`3 * d >= 10^9`) is forwarded. This is what the handler does when one handler
answers all the requests; the router does not run it that way. -/
theorem one_handler_burst_then_refill (S : Type) (clients : Clients Bucket) (ip : GoString)
    (first : Request S) (five : List (Request S)) (seventh eighth : Request S) (now d : Int)
    (hnew : lookupClient ip clients = none)
    (hfirst : isFrom ip first = true)
    (hfive : five.length = 5) (hfrom : ∀ r ∈ five, isFrom ip r = true)
    (hseventh : isFrom ip seventh = true) (heighth : isFrom ip eighth = true)
    (hwait : 1000000000 ≤ 3 * d) :
    serveAll tokenBucket clients
        ((first :: five).map (fun r => .request r ⟨now, now, now⟩)
          ++ [.request seventh ⟨now, now, now⟩, .request eighth ⟨now + d, now + d, now + d⟩])
      = (first :: five).map (fun r => (r, ⟨[], some r⟩))
        ++ [(seventh, ⟨[.writeHeader 429, .encode (.message (lockedMessage now))], none⟩),
            (eighth, ⟨[], some eighth⟩)] := by
  obtain ⟨port1, hport1⟩ := split_of_isFrom ip first hfirst
  obtain ⟨port7, hport7⟩ := split_of_isFrom ip seventh hseventh
  obtain ⟨port8, hport8⟩ := split_of_isFrom ip eighth heighth
  have hstep1 := serveAll_request tokenBucket clients first ⟨now, now, now⟩
    (five.map (fun r => .request r ⟨now, now, now⟩)
      ++ [.request seventh ⟨now, now, now⟩, .request eighth ⟨now + d, now + d, now + d⟩])
    ip port1 ⟨⟨3, 6, 6000000000, 0⟩, 0⟩ hport1 (by rw [hnew]; rfl)
  simp only [allow_full] at hstep1
  obtain ⟨m1, seen1, hm1, hrun⟩ := serve_burst ip now five
    (storeClient ip ⟨⟨3, 6, 5000000000, now⟩, now⟩ clients) 5000000000 now hfrom
    (lookup_store_same ip _ clients) (by rw [hfive]; norm_num) (by norm_num)
  rw [hfive] at hm1
  norm_num at hm1
  have hstep7 := serveAll_request tokenBucket m1 seventh ⟨now, now, now⟩
    [.request eighth ⟨now + d, now + d, now + d⟩] ip port7 ⟨⟨3, 6, 0, now⟩, seen1⟩ hport7
    (by rw [hm1])
  simp only [allow_empty_same_instant] at hstep7
  have hstep8 := serveAll_request tokenBucket (storeClient ip ⟨⟨3, 6, 0, now⟩, now⟩ m1) eighth
    ⟨now + d, now + d, now + d⟩ [] ip port8 ⟨⟨3, 6, 0, now⟩, now⟩ hport8
    (by rw [lookup_store_same])
  simp only [allow_after_wait now d hwait] at hstep8
  simp only [List.map_cons, List.cons_append]
  rw [hstep1, hrun, hstep7, hstep8]
  simp [serveAll]

/-- One handler on an empty map: eight requests from 10.0.0.1, seven at time 100 and
one a third of a second (333333334 ns) later. -/
theorem one_handler_burst_then_refill_example :
    serveAll tokenBucket []
        ((requestFrom "10.0.0.1:4000" :: List.replicate 5 (requestFrom "10.0.0.1:4001")).map
            (fun r => .request r ⟨100, 100, 100⟩)
          ++ [.request (requestFrom "10.0.0.1:4002") ⟨100, 100, 100⟩,
              .request (requestFrom "10.0.0.1:4003")
                ⟨100 + 333333334, 100 + 333333334, 100 + 333333334⟩])
      = (requestFrom "10.0.0.1:4000" :: List.replicate 5 (requestFrom "10.0.0.1:4001")).map
          (fun r => (r, ⟨[], some r⟩))
        ++ [(requestFrom "10.0.0.1:4002",
              ⟨[.writeHeader 429, .encode (.message (lockedMessage 100))], none⟩),
            (requestFrom "10.0.0.1:4003", ⟨[], some (requestFrom "10.0.0.1:4003")⟩)] :=
  one_handler_burst_then_refill Unit [] (ofAscii "10.0.0.1") (requestFrom "10.0.0.1:4000")
    (List.replicate 5 (requestFrom "10.0.0.1:4001")) (requestFrom "10.0.0.1:4002")
    (requestFrom "10.0.0.1:4003") 100 333333334 rfl rfl rfl
    (fun r hr => by rw [List.eq_of_mem_replicate hr]; rfl) rfl rfl (by decide)

/-! ## C6: the rate limiter behind the router -/

theorem fresh_handler_forwards {S : Type} (r : Request S) (t : Readings) (ip port : GoString)
    (hsplit : SplitHostPort r.RemoteAddr = some (ip, port)) :
    (RateLimiterMiddleware tokenBucket [] r t).2 = ⟨[], some r⟩ := by
  have hallow : tokenBucket.Allow t.allow (tokenBucket.NewLimiter 3 6)
      = (true, ⟨3, 6, 5000000000, t.allow⟩) := allow_full t.allow 0
  simp only [RateLimiterMiddleware, hsplit, lookupClient, hallow]
  rfl

theorem serveRouted_forwards {S : Type} (events : List (Event S))
    (hsplit : ∀ r t, Event.request r t ∈ events →
      ∃ ip port, SplitHostPort r.RemoteAddr = some (ip, port)) :
    ∀ a ∈ serveRouted tokenBucket events, a.2 = ⟨[], some a.1⟩ := by
  induction events with
  | nil => simp [serveRouted]
  | cons e events ih =>
    have hrest : ∀ r t, Event.request r t ∈ events →
        ∃ ip port, SplitHostPort r.RemoteAddr = some (ip, port) :=
      fun r t h => hsplit r t (by simp [h])
    cases e with
    | sweep now => simpa [serveRouted] using ih hrest
    | request r t =>
      obtain ⟨ip, port, hr⟩ := hsplit r t (by simp)
      intro a ha
      simp only [serveRouted, List.mem_cons] at ha
      rcases ha with ha | ha
      · rw [ha]
        exact fresh_handler_forwards r t ip port hr
      · exact ih hrest a ha

/-- C6, failing input: `GET /api/probe` passes through the rate limiter, yet of eight
requests from 10.0.0.1, seven at the same instant and one a third of a second
later, the router forwards every one, the seventh included: each request gets a
handler with a new, empty map and so a full bucket. One handler answering the
same eight requests on its map rejects the seventh with status 429. -/
theorem routed_limiter_forwards_seventh :
    Stage.RateLimiterMiddleware ∈ (RegisterRoutes "local").chain apiRouter
    ∧ (RegisterRoutes "local").dispatch "GET" "/api/probe"
      = some ([.LoggerMiddleware, .RateLimiterMiddleware], "Probe")
    ∧ serveRouted tokenBucket
        (List.replicate 7 (.request (requestFrom "10.0.0.1:4000") ⟨100, 100, 100⟩)
          ++ [.request (requestFrom "10.0.0.1:4000") ⟨333333434, 333333434, 333333434⟩])
      = List.replicate 8 (requestFrom "10.0.0.1:4000", ⟨[], some (requestFrom "10.0.0.1:4000")⟩)
    ∧ serveAll tokenBucket []
        (List.replicate 7 (.request (requestFrom "10.0.0.1:4000") ⟨100, 100, 100⟩)
          ++ [.request (requestFrom "10.0.0.1:4000") ⟨333333434, 333333434, 333333434⟩])
      = List.replicate 6 (requestFrom "10.0.0.1:4000", ⟨[], some (requestFrom "10.0.0.1:4000")⟩)
        ++ [(requestFrom "10.0.0.1:4000",
              ⟨[.writeHeader 429, .encode (.message (lockedMessage 100))], none⟩),
            (requestFrom "10.0.0.1:4000", ⟨[], some (requestFrom "10.0.0.1:4000")⟩)] := by
  refine ⟨by decide, by decide, by rfl, by rfl⟩

/-! ## strings.Split -/

theorem Split_ne_nil (sep : Nat) (s : GoString) : Split sep s ≠ [] := by
  cases s with
  | nil => simp [Split]
  | cons c rest =>
    by_cases hc : c = sep
    · simp [Split, hc]
    · simp only [Split, if_neg hc]
      split <;> simp

theorem Split_no_sep (sep : Nat) (s : GoString) (hs : sep ∉ s) : Split sep s = [s] := by
  induction s with
  | nil => rfl
  | cons c rest ih =>
    simp only [List.mem_cons, not_or] at hs
    simp [Split, Ne.symm hs.1, ih hs.2]

theorem Split_append (sep : Nat) (piece rest : GoString) (hp : sep ∉ piece) :
    Split sep (piece ++ sep :: rest) = piece :: Split sep rest := by
  induction piece with
  | nil => simp [Split]
  | cons c piece ih =>
    simp only [List.mem_cons, not_or] at hp
    simp [Split, Ne.symm hp.1, ih hp.2]

theorem Split_one (sep : Nat) (s b : GoString) (h : Split sep s = [b]) : s = b ∧ sep ∉ b := by
  induction s generalizing b with
  | nil =>
    simp only [Split, List.cons.injEq, and_true] at h
    subst h
    simp
  | cons c rest ih =>
    by_cases hc : c = sep
    · simp only [Split, if_pos hc, List.cons.injEq] at h
      exact absurd h.2 (Split_ne_nil sep rest)
    · simp only [Split, if_neg hc] at h
      cases hr : Split sep rest with
      | nil => exact absurd hr (Split_ne_nil sep rest)
      | cons p ps =>
        rw [hr] at h
        simp only [List.cons.injEq] at h
        obtain ⟨hb, hps⟩ := h
        subst hps
        obtain ⟨hrest, hsep⟩ := ih p hr
        subst hb
        subst hrest
        exact ⟨rfl, by simp [Ne.symm hc, hsep]⟩

theorem Split_two (sep : Nat) (s a b : GoString) (h : Split sep s = [a, b]) :
    s = a ++ sep :: b ∧ sep ∉ a ∧ sep ∉ b := by
  induction s generalizing a with
  | nil => simp [Split] at h
  | cons c rest ih =>
    by_cases hc : c = sep
    · simp only [Split, if_pos hc, List.cons.injEq] at h
      obtain ⟨ha, hrest⟩ := h
      obtain ⟨hb, hsep⟩ := Split_one sep rest b hrest
      subst ha
      subst hb
      exact ⟨by simp [hc], by simp, hsep⟩
    · simp only [Split, if_neg hc] at h
      cases hr : Split sep rest with
      | nil => exact absurd hr (Split_ne_nil sep rest)
      | cons p ps =>
        rw [hr] at h
        simp only [List.cons.injEq] at h
        obtain ⟨ha, hps⟩ := h
        subst hps
        obtain ⟨hrest, hpa, hpb⟩ := ih p hr
        subst ha
        exact ⟨by rw [hrest]; rfl, by simp [Ne.symm hc, hpa], hpb⟩

/-! ## C9: authentication -/

theorem auth_of_bearer {S : Type} (VerifyToken : GoString → Except String S)
    (r : Request S) (token : GoString)
    (hform : headerGet r.Authorization = Bearer ++ 32 :: token) (htoken : 32 ∉ token) :
    ClerkAuthMiddleware VerifyToken r
      = match VerifyToken token with
        | .error _ => ⟨[.httpError "Invalid session" 401], [token], none⟩
        | .ok session => ⟨[], [token], some { r with session := some session }⟩ := by
  have hparts : Split 32 (Bearer ++ 32 :: token) = [Bearer, token] := by
    rw [Split_append 32 Bearer token (by decide), Split_no_sep 32 token htoken]
  have hne : ¬ (Bearer ++ 32 :: token = []) := by simp [Bearer]
  simp only [ClerkAuthMiddleware, hform, hparts, if_neg hne]
  simp

theorem auth_of_malformed {S : Type} (VerifyToken : GoString → Except String S)
    (r : Request S)
    (hform : ¬ ∃ token, headerGet r.Authorization = Bearer ++ 32 :: token ∧ 32 ∉ token) :
    ClerkAuthMiddleware VerifyToken r = ⟨[.httpError "Unauthorized" 401], [], none⟩
    ∨ ClerkAuthMiddleware VerifyToken r
      = ⟨[.httpError "Invalid authorization header" 401], [], none⟩ := by
  by_cases hempty : headerGet r.Authorization = []
  · left
    simp only [ClerkAuthMiddleware, hempty, if_true]
  · right
    by_cases hparts : (Split 32 (headerGet r.Authorization)).length ≠ 2
        ∨ (Split 32 (headerGet r.Authorization)).head? ≠ some Bearer
    · simp only [ClerkAuthMiddleware, if_neg hempty, if_pos hparts]
    · exfalso
      simp only [not_or, not_not] at hparts
      obtain ⟨hlen, hhead⟩ := hparts
      cases hs : Split 32 (headerGet r.Authorization) with
      | nil => rw [hs] at hlen; simp at hlen
      | cons a rest =>
        cases rest with
        | nil => rw [hs] at hlen; simp at hlen
        | cons b rest =>
          cases rest with
          | cons c rest => rw [hs] at hlen; simp at hlen
          | nil =>
            rw [hs] at hhead
            simp only [List.head?_cons, Option.some.injEq] at hhead
            subst hhead
            obtain ⟨hh, _, hb⟩ := Split_two 32 _ _ _ hs
            exact hform ⟨b, hh, hb⟩

/-- C9, as amended: for every value of the `Authorization` header (the empty string
when the header is absent): if it is not the word `Bearer`, one space and a token
without a space (the token may be empty), the response is 401, `VerifyToken` is
not called and the next handler is not called; if it has that form, `VerifyToken`
is called once, with the token, and when it rejects the token the response is
401 and the next handler is not called; the next handler is called only when
`VerifyToken` accepts the token, and then with the session in the context. -/
theorem auth_middleware_contract (S : Type) (VerifyToken : GoString → Except String S)
    (r : Request S) :
    ((¬ ∃ token, headerGet r.Authorization = Bearer ++ 32 :: token ∧ 32 ∉ token) →
      (ClerkAuthMiddleware VerifyToken r = ⟨[.httpError "Unauthorized" 401], [], none⟩
        ∨ ClerkAuthMiddleware VerifyToken r
          = ⟨[.httpError "Invalid authorization header" 401], [], none⟩))
    ∧ (∀ token, headerGet r.Authorization = Bearer ++ 32 :: token → 32 ∉ token →
        (∀ e, VerifyToken token = .error e →
          ClerkAuthMiddleware VerifyToken r = ⟨[.httpError "Invalid session" 401], [token], none⟩)
        ∧ (∀ session, VerifyToken token = .ok session →
          ClerkAuthMiddleware VerifyToken r
            = ⟨[], [token], some { r with session := some session }⟩))
    ∧ (∀ passed, (ClerkAuthMiddleware VerifyToken r).forwarded = some passed →
        ∃ token session, VerifyToken token = .ok session
          ∧ (ClerkAuthMiddleware VerifyToken r).verified = [token]
          ∧ passed = { r with session := some session }) := by
  refine ⟨auth_of_malformed VerifyToken r, ?_, ?_⟩
  · intro token hform htoken
    have h := auth_of_bearer VerifyToken r token hform htoken
    constructor
    · intro e he
      rw [h, he]
    · intro session hs
      rw [h, hs]
  · intro passed hpassed
    by_cases hform : ∃ token, headerGet r.Authorization = Bearer ++ 32 :: token ∧ 32 ∉ token
    · obtain ⟨token, hh, htoken⟩ := hform
      have h := auth_of_bearer VerifyToken r token hh htoken
      cases hv : VerifyToken token with
      | error e =>
        rw [h, hv] at hpassed
        simp at hpassed
      | ok session =>
        rw [h, hv] at hpassed ⊢
        simp only [Option.some.injEq] at hpassed
        exact ⟨token, session, hv, rfl, hpassed.symm⟩
    · rcases auth_of_malformed VerifyToken r hform with h | h <;>
        · rw [h] at hpassed
          simp at hpassed

/-- Witness of C9 (amended): the header `Bearer abc` with a verifier that accepts. -/
theorem auth_middleware_contract_witness :
    headerGet (requestWithAuth "Bearer abc").Authorization = Bearer ++ 32 :: ofAscii "abc"
    ∧ 32 ∉ ofAscii "abc"
    ∧ ClerkAuthMiddleware acceptToken (requestWithAuth "Bearer abc")
      = ⟨[], [ofAscii "abc"], some { requestWithAuth "Bearer abc" with session := some () }⟩ :=
  ⟨rfl, by decide,
    ((auth_middleware_contract Unit acceptToken (requestWithAuth "Bearer abc")).2.1
      (ofAscii "abc") rfl (by decide)).2 () rfl⟩

/-- Counterexample to C9 as stated: the header `Bearer ` (the word and a space, with
an empty token) is not of the form `Bearer <token>` with a non-empty token, yet
`VerifyToken` is called, with the empty token. -/
theorem auth_empty_token_counterexample :
    headerGet (requestWithAuth "Bearer ").Authorization = Bearer ++ 32 :: []
    ∧ ClerkAuthMiddleware rejectToken (requestWithAuth "Bearer ")
      = ⟨[.httpError "Invalid session" 401], [[]], none⟩
    ∧ (ClerkAuthMiddleware rejectToken (requestWithAuth "Bearer ")).verified ≠ []
    ∧ ClerkAuthMiddleware acceptToken (requestWithAuth "Bearer ")
      = ⟨[], [[]], some { requestWithAuth "Bearer " with session := some () }⟩ :=
  ⟨rfl, rfl, by decide, rfl⟩

/-! ## C10: error translation -/

/-- C10: when the route handler returns a non-nil error, `HTTPHandlerFunc` writes,
after whatever the handler wrote, the content type, status 400 and the JSON object
with the single key `error`, whose value is the message of the error unchanged,
except that the message `sql: no rows in result set` is replaced by
`No email found. Please sign up.`; when the handler returns nil nothing is added
to what the handler wrote. -/
theorem error_translation (S : Type) (f : Request S → List WriterCall × Option String)
    (r : Request S) :
    HTTPHandlerFunc f r
      = match (f r).2 with
        | none => (f r).1
        | some err =>
          (f r).1 ++ [.addHeader "Content-Type" "application/json", .writeHeader 400,
            .encode (.object [("error",
              if err = "sql: no rows in result set" then "No email found. Please sign up."
              else err)])] := by
  unfold HTTPHandlerFunc
  cases (f r).2 <;> rfl

/-! ## C11: the middleware pipeline -/

theorem RegisterRoutes_local :
    RegisterRoutes "local"
      = ⟨[.LoggerMiddleware, .RateLimiterMiddleware], [apiRouter, privateRouter]⟩ := by
  rfl

theorem RegisterRoutes_monitored (env : String) (henv : env ≠ "local") :
    RegisterRoutes env
      = ⟨[.LoggerMiddleware, .RateLimiterMiddleware, .monitor], [apiRouter, privateRouter]⟩ := by
  simp only [RegisterRoutes, if_pos henv]
  rfl

/-- C11, as amended: the pipeline built by `RegisterRoutes` runs logging, then rate
limiting, then monitoring instrumentation, then (on the routes of the protected
subrouter only) authentication, then the route handler; monitoring is in the
pipeline iff the environment is not `local`; and `GET /api/probe` is dispatched
to `Probe` behind logging, rate limiting and monitoring, without
authentication. -/
theorem pipeline_order (env : String) :
    (RegisterRoutes env).subrouters = [apiRouter, privateRouter]
    ∧ (RegisterRoutes env).chain apiRouter
      = [.LoggerMiddleware, .RateLimiterMiddleware] ++ (if env = "local" then [] else [.monitor])
    ∧ (RegisterRoutes env).chain privateRouter
      = [.LoggerMiddleware, .RateLimiterMiddleware] ++ (if env = "local" then [] else [.monitor])
        ++ [.ClerkAuthMiddleware]
    ∧ (Stage.monitor ∈ (RegisterRoutes env).chain apiRouter ↔ env ≠ "local")
    ∧ (Stage.monitor ∈ (RegisterRoutes env).chain privateRouter ↔ env ≠ "local")
    ∧ (RegisterRoutes env).dispatch "GET" "/api/probe"
      = some ((RegisterRoutes env).chain apiRouter, "Probe")
    ∧ Stage.ClerkAuthMiddleware ∉ (RegisterRoutes env).chain apiRouter := by
  by_cases henv : env = "local"
  · subst henv
    rw [RegisterRoutes_local]
    decide
  · rw [RegisterRoutes_monitored env henv]
    simp only [if_neg henv, ne_eq, henv, not_false_eq_true, iff_true]
    decide

/-- Counterexample to C11 as stated: in the environment `development` a route of
the protected subrouter runs monitoring before authentication, not after it. -/
theorem pipeline_order_counterexample :
    (RegisterRoutes "development").chain privateRouter
      = [.LoggerMiddleware, .RateLimiterMiddleware, .monitor, .ClerkAuthMiddleware]
    ∧ (RegisterRoutes "development").chain privateRouter
      ≠ [.LoggerMiddleware, .RateLimiterMiddleware, .ClerkAuthMiddleware, .monitor] := by
  decide

/-! ## C12: logging -/

/-- C12, as amended: for a request whose remote address splits into host and port,
served with the server address in its context, `LoggerMiddleware` logs one record
and calls the next handler once, with the request unmodified, writing nothing to
the response; for a request whose remote address cannot be split it writes
status 500, logs nothing and does not call the next handler. -/
theorem logger_forwards_or_rejects (S : Type) (localAddr : Option GoString) (r : Request S) :
    (∀ ip port srvAddr, SplitHostPort r.RemoteAddr = some (ip, port) →
      localAddr = some srvAddr →
      LoggerMiddleware localAddr r = .served [⟨ip, srvAddr, r.RemoteAddr⟩] ⟨[], some r⟩)
    ∧ (SplitHostPort r.RemoteAddr = none →
      LoggerMiddleware localAddr r = .served [] ⟨[.writeHeader 500], none⟩) := by
  constructor
  · intro ip port srvAddr hsplit hlocal
    simp only [LoggerMiddleware, hsplit, hlocal]
  · intro hsplit
    simp only [LoggerMiddleware, hsplit]

/-- Witness of C12 (amended): a request from 10.0.0.1:4000 on a server bound to
port 8080. -/
theorem logger_forwards_or_rejects_witness :
    SplitHostPort (requestFrom "10.0.0.1:4000").RemoteAddr
      = some (ofAscii "10.0.0.1", ofAscii "4000")
    ∧ LoggerMiddleware (some (ofAscii "[::]:8080")) (requestFrom "10.0.0.1:4000")
      = .served [⟨ofAscii "10.0.0.1", ofAscii "[::]:8080", ofAscii "10.0.0.1:4000"⟩]
          ⟨[], some (requestFrom "10.0.0.1:4000")⟩ :=
  ⟨rfl, (logger_forwards_or_rejects Unit (some (ofAscii "[::]:8080"))
      (requestFrom "10.0.0.1:4000")).1 (ofAscii "10.0.0.1") (ofAscii "4000")
      (ofAscii "[::]:8080") rfl rfl⟩

/-- Counterexample to C12 as stated: the remote address `10.0.0.1` has no port and
cannot be split; `LoggerMiddleware` writes status 500 and does not call the
next handler. -/
theorem logger_unsplit_counterexample :
    SplitHostPort (requestFrom "10.0.0.1").RemoteAddr = none
    ∧ LoggerMiddleware (some (ofAscii "[::]:8080")) (requestFrom "10.0.0.1")
      = .served [] ⟨[.writeHeader 500], none⟩ :=
  ⟨rfl, rfl⟩

/-! ## C13: the order of the conditions -/

theorem conditionStep_from_empty {F : Type} (ParseFloat : GoString → Except NumError F)
    (query : Query F) (field : String) (value : Value F) :
    conditionStep ParseFloat query field value
      = match conditionStep ParseFloat [] field value with
        | .continue clauses => .continue (query ++ clauses)
        | .fail e => .fail e
        | .crash => .crash := by
  by_cases hprice : field = "price"
  · have hpct : ¬ field = "pct_remaining" := by rw [hprice]; decide
    cases value with
    | str s =>
      rcases hl : s.getLast? with _ | c
      · simp [conditionStep, priceBlock, hl, hprice]
      · rcases ha : Atoi s.dropLast with e | n
        · simp [conditionStep, priceBlock, hl, ha, hprice]
        · by_cases h45 : c = 45
          · simp [conditionStep, priceBlock, hl, ha, hprice, h45]
          · by_cases h43 : c = 43
            · simp [conditionStep, priceBlock, hl, ha, hprice, h43]
            · simp [conditionStep, priceBlock, hl, ha, hprice, h45, h43]
    | int n => simp [conditionStep, priceBlock, hprice]
    | float x => simp [conditionStep, priceBlock, hprice]
    | bool b => simp [conditionStep, priceBlock, hprice]
    | null => simp [conditionStep, priceBlock, hprice]
  · by_cases hpct : field = "pct_remaining"
    · cases value with
      | str s =>
        rcases hl : s.getLast? with _ | c
        · simp [conditionStep, pctBlock, hl, hprice, hpct]
        · rcases ha : ParseFloat s.dropLast with e | x
          · simp [conditionStep, pctBlock, hl, ha, hprice, hpct]
          · by_cases h45 : c = 45
            · simp [conditionStep, pctBlock, hl, ha, hprice, hpct, h45]
            · by_cases h43 : c = 43
              · simp [conditionStep, pctBlock, hl, ha, hprice, hpct, h43]
              · simp [conditionStep, pctBlock, hl, ha, hprice, hpct, h45, h43]
      | int n => simp [conditionStep, pctBlock, hprice, hpct]
      | float x => simp [conditionStep, pctBlock, hprice, hpct]
      | bool b => simp [conditionStep, pctBlock, hprice, hpct]
      | null => simp [conditionStep, pctBlock, hprice, hpct]
    · simp [conditionStep, hprice, hpct]


theorem conditionLoop_cons {F : Type} (ParseFloat : GoString → Except NumError F)
    (query : Query F) (c : String × Value F) (rest : List (String × Value F)) :
    conditionLoop ParseFloat query (c :: rest)
      = match conditionStep ParseFloat [] c.1 c.2 with
        | .continue clauses => conditionLoop ParseFloat (query ++ clauses) rest
        | .fail e => .fail e
        | .crash => .crash := by
  obtain ⟨field, value⟩ := c
  simp only [conditionLoop]
  rw [conditionStep_from_empty]
  cases conditionStep ParseFloat [] field value <;> rfl

theorem conditionLoop_of_accepted {F : Type} (ParseFloat : GoString → Except NumError F)
    (conditions : List (String × Value F)) (query : Query F)
    (hall : ∀ c ∈ conditions, ∃ clauses, conditionStep ParseFloat [] c.1 c.2 = .continue clauses) :
    conditionLoop ParseFloat query conditions
      = .continue (query ++ acceptedClauses ParseFloat conditions) := by
  induction conditions generalizing query with
  | nil => simp [conditionLoop, acceptedClauses]
  | cons c rest ih =>
    obtain ⟨clauses, hc⟩ := hall c (by simp)
    rw [conditionLoop_cons, hc]
    simp only []
    rw [ih _ (fun d hd => hall d (by simp [hd]))]
    simp [acceptedClauses, hc]

theorem accepted_of_conditionLoop {F : Type} (ParseFloat : GoString → Except NumError F)
    (conditions : List (String × Value F)) (query result : Query F)
    (hloop : conditionLoop ParseFloat query conditions = .continue result) :
    ∀ c ∈ conditions, ∃ clauses, conditionStep ParseFloat [] c.1 c.2 = .continue clauses := by
  induction conditions generalizing query with
  | nil => simp
  | cons c rest ih =>
    rw [conditionLoop_cons] at hloop
    cases hc : conditionStep ParseFloat [] c.1 c.2 with
    | «continue» clauses =>
      rw [hc] at hloop
      intro d hd
      rcases List.mem_cons.mp hd with h | h
      · exact ⟨clauses, by rw [h, hc]⟩
      · exact ih _ hloop d h
    | fail e => rw [hc] at hloop; cases hloop
    | crash => rw [hc] at hloop; cases hloop

theorem rejected_of_conditionLoop_fail {F : Type} (ParseFloat : GoString → Except NumError F)
    (conditions : List (String × Value F)) (query : Query F) (e : QueryError)
    (hloop : conditionLoop ParseFloat query conditions = .fail e) :
    ∃ c ∈ conditions, conditionStep ParseFloat [] c.1 c.2 = .fail e := by
  induction conditions generalizing query with
  | nil => simp [conditionLoop] at hloop
  | cons c rest ih =>
    rw [conditionLoop_cons] at hloop
    cases hc : conditionStep ParseFloat [] c.1 c.2 with
    | «continue» clauses =>
      rw [hc] at hloop
      obtain ⟨d, hd, hstep⟩ := ih _ hloop
      exact ⟨d, by simp [hd], hstep⟩
    | fail e1 =>
      rw [hc] at hloop
      simp only [Flow.fail.injEq] at hloop
      exact ⟨c, by simp, by rw [hc, hloop]⟩
    | crash => rw [hc] at hloop; cases hloop

theorem rejected_of_conditionLoop_crash {F : Type} (ParseFloat : GoString → Except NumError F)
    (conditions : List (String × Value F)) (query : Query F)
    (hloop : conditionLoop ParseFloat query conditions = .crash) :
    ∃ c ∈ conditions, conditionStep ParseFloat [] c.1 c.2 = .crash := by
  induction conditions generalizing query with
  | nil => simp [conditionLoop] at hloop
  | cons c rest ih =>
    rw [conditionLoop_cons] at hloop
    cases hc : conditionStep ParseFloat [] c.1 c.2 with
    | «continue» clauses =>
      rw [hc] at hloop
      obtain ⟨d, hd, hstep⟩ := ih _ hloop
      exact ⟨d, by simp [hd], hstep⟩
    | fail e1 => rw [hc] at hloop; cases hloop
    | crash => exact ⟨c, by simp, hc⟩

/-- C13, as amended: for two orders of visiting the same conditions, if the loop
accepts every condition in one order it does so in the other and yields the
same clauses (as a set; their order follows the visit order); if it stops in
one order it stops in the other; and it returns the same error in both orders
when no condition of the set is rejected in another way. Which error comes back
when several conditions are rejected differently depends on the order. -/
theorem loop_order_independence (F : Type) (ParseFloat : GoString → Except NumError F)
    (order1 order2 : List (String × Value F)) (hperm : order1.Perm order2) :
    (∀ query1, conditionLoop ParseFloat [] order1 = .continue query1 →
      ∃ query2, conditionLoop ParseFloat [] order2 = .continue query2 ∧ query1.Perm query2)
    ∧ ((∀ query1, conditionLoop ParseFloat [] order1 ≠ .continue query1) →
      ∀ query2, conditionLoop ParseFloat [] order2 ≠ .continue query2)
    ∧ (∀ e, conditionLoop ParseFloat [] order1 = .fail e →
        (∀ c ∈ order1, (∃ clauses, conditionStep ParseFloat [] c.1 c.2 = .continue clauses)
          ∨ conditionStep ParseFloat [] c.1 c.2 = .fail e) →
        conditionLoop ParseFloat [] order2 = .fail e) := by
  refine ⟨?_, ?_, ?_⟩
  · intro query1 h1
    have hall := accepted_of_conditionLoop ParseFloat order1 [] query1 h1
    have hall2 : ∀ c ∈ order2,
        ∃ clauses, conditionStep ParseFloat [] c.1 c.2 = .continue clauses :=
      fun c hc => hall c (hperm.mem_iff.mpr hc)
    rw [conditionLoop_of_accepted ParseFloat order1 [] hall] at h1
    simp only [Flow.continue.injEq] at h1
    refine ⟨_, conditionLoop_of_accepted ParseFloat order2 [] hall2, ?_⟩
    rw [← h1]
    exact List.Perm.append_left [] (List.Perm.flatMap_right _ hperm)
  · intro hnot query2 h2
    have hall := accepted_of_conditionLoop ParseFloat order2 [] query2 h2
    have hall1 : ∀ c ∈ order1,
        ∃ clauses, conditionStep ParseFloat [] c.1 c.2 = .continue clauses :=
      fun c hc => hall c (hperm.mem_iff.mp hc)
    exact hnot _ (conditionLoop_of_accepted ParseFloat order1 [] hall1)
  · intro e h1 hsame
    obtain ⟨c, hc, hstep⟩ := rejected_of_conditionLoop_fail ParseFloat order1 [] e h1
    cases h2 : conditionLoop ParseFloat [] order2 with
    | «continue» query2 =>
      obtain ⟨clauses, hacc⟩ :=
        accepted_of_conditionLoop ParseFloat order2 [] query2 h2 c (hperm.mem_iff.mp hc)
      rw [hacc] at hstep
      cases hstep
    | fail e2 =>
      obtain ⟨d, hd, hdstep⟩ := rejected_of_conditionLoop_fail ParseFloat order2 [] e2 h2
      rcases hsame d (hperm.mem_iff.mpr hd) with ⟨clauses, hacc⟩ | hfail
      · rw [hacc] at hdstep
        cases hdstep
      · rw [hfail] at hdstep
        rw [hdstep]
    | crash =>
      obtain ⟨d, hd, hdstep⟩ := rejected_of_conditionLoop_crash ParseFloat order2 [] h2
      rcases hsame d (hperm.mem_iff.mpr hd) with ⟨clauses, hacc⟩ | hfail
      · rw [hacc] at hdstep
        cases hdstep
      · rw [hfail] at hdstep
        cases hdstep

/-- Witness of C13 (amended): the conditions `name = "bob"` and `price = "100-"`,
visited in either order. -/
theorem loop_order_independence_witness :
    ([("name", .str (ofAscii "bob")), ("price", .str (ofAscii "100-"))] :
        List (String × Value Unit)).Perm
      [("price", .str (ofAscii "100-")), ("name", .str (ofAscii "bob"))]
    ∧ conditionLoop rejectFloat []
        [("name", .str (ofAscii "bob")), ("price", .str (ofAscii "100-"))]
      = .continue [⟨"name = ?", .str (ofAscii "bob")⟩, ⟨"price <= ?", .int 100⟩]
    ∧ ∃ query2, conditionLoop rejectFloat []
        [("price", .str (ofAscii "100-")), ("name", .str (ofAscii "bob"))] = .continue query2
      ∧ ([⟨"name = ?", .str (ofAscii "bob")⟩, ⟨"price <= ?", .int 100⟩] :
          Query Unit).Perm query2 :=
  ⟨List.Perm.swap _ _ _, rfl,
    (loop_order_independence Unit rejectFloat
      [("name", .str (ofAscii "bob")), ("price", .str (ofAscii "100-"))]
      [("price", .str (ofAscii "100-")), ("name", .str (ofAscii "bob"))]
      (List.Perm.swap _ _ _)).1 _ rfl⟩

/-- Counterexample to C13 as stated: the conditions `price = 5` and
`pct_remaining = 7`, neither a string. Visiting `price` first the loop returns
`value (price) is not a string`, visiting `pct_remaining` first it returns
`value (pct_remaining) is not a string`: two orders of one condition set, two
different errors. -/
theorem loop_order_counterexample :
    ([("price", .int 5), ("pct_remaining", .int 7)] : List (String × Value Unit)).Perm
      [("pct_remaining", .int 7), ("price", .int 5)]
    ∧ conditionLoop rejectFloat [] [("price", .int 5), ("pct_remaining", .int 7)]
      = .fail .priceNotString
    ∧ conditionLoop rejectFloat [] [("pct_remaining", .int 7), ("price", .int 5)]
      = .fail .pctNotString
    ∧ QueryError.priceNotString ≠ QueryError.pctNotString :=
  ⟨List.Perm.swap _ _ _, rfl, rfl, by decide⟩

end XCore
